import Mathlib

/-!
Verification of the Duckling orchestrator core against its specification.

The definitions below are a shallow embedding, in Lean 4, of the Python
source of the repository:

* `src/orchestrator/models/task.py` — the task data model (`Task`,
  `TaskStatus`, `TaskPriority`, `TaskMode`, `mark_completed`,
  `mark_review_completed`, `mark_failed`);
* `src/agent_runner/runner.py` — the agent runner (`StepType`,
  `StepResult`, `AgentRunResult`, `AgentRunner.run`,
  `AgentRunner.run_peer_review`);
* `src/orchestrator/services/pipeline.py` — the pipeline driver and the
  task queue (`TaskPipeline._execute_code` / `_execute_review` /
  `_execute_peer_review` / `_generate_pr_title` / `_update_status`,
  `TaskQueue.submit` / `cancel_task` / `_process_loop`);
* `src/git_integration/git_manager.py` and
  `src/git_integration/providers/*.py` — URL parsing and clone-URL
  building (`parse_repo_from_url`, `get_clone_url`).

Python strings are modelled as `String` with every operation defined over
`String.data : List Char`, which matches Python's code-point semantics
(`s[:n]`, `len`, `startswith`, `strip`, `lower`, `split`).  Shell/engine
effects are modelled by environments (`ExecRes` triples for
`backend.exec_in_vm`, `Bool × String` pairs for `engine.execute_prompt`):
each call site reads its outcome from the environment, exactly as the
Python code reads the tuple the call returns.  Wall-clock durations,
`datetime` timestamps (`created_at`, `completed_at`, `duration_seconds`)
and the free-form `metadata`/`test_results` dictionaries are outside the
embedding: no claim mentions them.  The ghost field `Task.status_history`
records every assignment to `task.status` in order (the Python code
mutates the field in place); `AgentRunResult.engine_started` records
whether `engine.start` was invoked.
-/

namespace Duckling

/-! ## Python string primitives (over `String.data`, Python's code points) -/

/-- Python `s[:n]` (also `[:69]`, `[:8]`, `[:15000]`). -/
def pyTake (n : Nat) (s : String) : String := String.mk (s.data.take n)

/-- Python `len(s)` (code points). -/
def pyLen (s : String) : Nat := s.data.length

/-- Python `s.lower()` restricted to ASCII, which is all the source compares. -/
def pyLower (s : String) : String := String.mk (s.data.map Char.toLower)

/-- Python `s.startswith(p)`. -/
def pyStartsWith (s p : String) : Bool := p.data.isPrefixOf s.data

/-- Python `s.strip()` (whitespace at both ends). -/
def pyStrip (s : String) : String :=
  String.mk (((s.data.dropWhile Char.isWhitespace).reverse.dropWhile Char.isWhitespace).reverse)

/-- Python `"\n".join(lines)`. -/
def joinLines (lines : List String) : String := String.intercalate "\n" lines

/-- `sub` occurs as a contiguous run inside `l`. -/
def containsSub (sub : List Char) : List Char → Bool
  | [] => sub.isEmpty
  | c :: rest => sub.isPrefixOf (c :: rest) || containsSub sub rest

/-- Python `sub in s` (substring containment). -/
def pyContains (s sub : String) : Bool := containsSub sub.data s.data

/-- Python `s.split("\n")`. -/
def pySplitNl (s : String) : List String := (s.data.splitOn '\n').map String.mk

/-- `[f.strip() for f in out.strip().split("\n") if f.strip()]`
(runner.py line 544 and line 1127). -/
def pyFilterLines (out : String) : List String :=
  ((pySplitNl (pyStrip out)).map pyStrip).filter (fun f => f ≠ "")

/-- `out.strip().split("\n")[-1] if out.strip() else ""` (runner.py line 1143,
also the shape of line 571). -/
def pyLastLineOrEmpty (out : String) : String :=
  if pyStrip out = "" then "" else ((pySplitNl (pyStrip out)).getLast?).getD ""

/-- Python rendering of an `Optional[str]` inside an f-string (`None` prints
as the word None). -/
def pyShowOpt : Option String → String
  | none => "None"
  | some s => s

/-! ## Task data model (`src/orchestrator/models/task.py`) -/

/-- `TaskStatus` (task.py lines 15-23). -/
inductive TaskStatus
  | pending
  | claiming_vm
  | running
  | testing
  | creating_pr
  | completed
  | failed
  | cancelled
deriving DecidableEq, Repr

/-- Terminal statuses per the specification: completed, failed, cancelled. -/
def TaskStatus.isTerminal : TaskStatus → Bool
  | .completed => true
  | .failed => true
  | .cancelled => true
  | _ => false

/-- `TaskPriority` (task.py lines 26-30). -/
inductive TaskPriority
  | low
  | medium
  | high
  | critical
deriving DecidableEq, Repr

/-- `GitProvider` (task.py lines 33-35). -/
inductive GitProviderT
  | github
  | bitbucket
deriving DecidableEq, Repr

/-- `TaskMode` (task.py lines 45-50). -/
inductive TaskMode
  | code
  | review
  | peer_review
deriving DecidableEq, Repr

/-- `Task` (task.py lines 114-149), restricted to the fields the claims
touch.  `datetime` fields and requester metadata are outside the embedding;
`status_history` is a ghost field recording every assignment to `status`. -/
structure Task where
  id : String
  status : TaskStatus := .pending
  description : String
  repo_url : String
  branch : String := "main"
  target_branch : Option String := none
  working_branch : Option String := none
  git_provider : GitProviderT := .github
  priority : TaskPriority := .medium
  mode : TaskMode := .code
  vm_id : Option String := none
  agent_log : String := ""
  pr_url : Option String := none
  pr_number : Option Nat := none
  error_message : Option String := none
  iterations_used : Nat := 0
  files_changed : List String := []
  review_output : Option String := none
  status_history : List TaskStatus := [.pending]
deriving DecidableEq, Repr

/-- Every Python assignment `task.status = s` goes through this helper; the
ghost history records the assignment. -/
def statusSet (t : Task) (s : TaskStatus) : Task :=
  { t with status := s, status_history := t.status_history ++ [s] }

/-- `Task.mark_completed` (task.py lines 151-158); timestamps omitted. -/
def mark_completed (t : Task) (pr_url : String) (pr_number : Nat) : Task :=
  { statusSet t .completed with pr_url := some pr_url, pr_number := some pr_number }

/-- `Task.mark_review_completed` (task.py lines 160-166); timestamps omitted. -/
def mark_review_completed (t : Task) (review_output : String) : Task :=
  { statusSet t .completed with review_output := some review_output }

/-- `Task.mark_failed` (task.py lines 168-174); timestamps omitted. -/
def mark_failed (t : Task) (error : String) : Task :=
  { statusSet t .failed with error_message := some error }

/-! ## Agent runner (`src/agent_runner/runner.py`) -/

/-- `StepType` (runner.py lines 45-61). -/
inductive StepType
  | setup
  | analyze
  | plan
  | code
  | lint
  | test
  | repair
  | commit
  | pr
  | inventory
  | deps
  | metrics
  | security
  | file_review
  | synthesis
  | report
deriving DecidableEq, Repr

/-- The Python enum's `.value` string for each `StepType` member
(runner.py lines 45-61); pipeline.py compares `step.step.value == "report"`. -/
def StepType.value : StepType → String
  | .setup => "setup"
  | .analyze => "analyze"
  | .plan => "plan"
  | .code => "code"
  | .lint => "lint"
  | .test => "test"
  | .repair => "repair"
  | .commit => "commit"
  | .pr => "pr"
  | .inventory => "inventory"
  | .deps => "deps"
  | .metrics => "metrics"
  | .security => "security"
  | .file_review => "file_review"
  | .synthesis => "synthesis"
  | .report => "report"

/-- `StepResult` (runner.py lines 64-71); `duration_seconds` and the
free-form `metadata` dict are outside the embedding. -/
structure StepResult where
  step : StepType
  success : Bool
  output : String := ""
  error : String := ""
deriving DecidableEq, Repr

/-- `AgentRunResult` (runner.py lines 74-87); `test_results` and
`total_duration_seconds` are outside the embedding.  `engine_started` is a
ghost field recording whether `engine.start` was invoked during the run. -/
structure AgentRunResult where
  success : Bool := false
  steps : List StepResult := []
  files_changed : List String := []
  iterations_used : Nat := 0
  commit_sha : String := ""
  error : String := ""
  agent_log : String := ""
  engine_started : Bool := false
deriving DecidableEq, Repr

/-- The `(exit_code, stdout, stderr)` triple `backend.exec_in_vm` returns. -/
structure ExecRes where
  exitCode : Int
  stdout : String := ""
  stderr : String := ""
deriving DecidableEq, Repr

/-- A deterministic step's `StepResult` as every `_step_*` helper builds it:
`success = (exit_code == 0)`, `output = stdout`,
`error = stderr if exit_code != 0 else ""`. -/
def mkDetStep (k : StepType) (r : ExecRes) : StepResult :=
  { step := k
    success := r.exitCode == 0
    output := r.stdout
    error := if r.exitCode == 0 then "" else r.stderr }

/-- `_step_repair` (runner.py lines 647-662): `success` is always true
("repair is best-effort, next lint/test will validate"). -/
def mkRepairStep (p : Bool × String) : StepResult :=
  { step := .repair, success := true, output := p.2 }

/-- Environment for one `AgentRunner.run`: the outcome each backend/engine
call site would observe, indexed by repair-loop iteration where the call
is made once per iteration. -/
structure CodeEnv where
  engineName : String := "goose"
  setup : ExecRes
  analyze : Bool × String := (true, "")
  plan : Bool × String := (true, "")
  code : Bool × String
  lint : Nat → ExecRes
  test : Nat → ExecRes
  repair : Nat → Bool × String := fun _ => (true, "")
  commitFiles : ExecRes := { exitCode := 0 }
  commit : ExecRes

/-- Outcome of the bounded lint → test → repair loop
(runner.py lines 398-436): either both gates went green (Python `break`)
or the `for` ran out (Python `else`). -/
inductive GateOutcome
  | passed (steps : List StepResult) (iters : Nat)
  | exhausted (steps : List StepResult) (iters : Nat)
deriving DecidableEq, Repr

/-- The `for iteration in range(1, max_repair_iterations + 1)` loop of
`AgentRunner.run` (runner.py lines 398-436).  `iter` is Python's
`iteration`, `remaining` the iterations left, `iters` the last value
written to `result.iterations_used`. -/
def gateLoop (env : CodeEnv) : Nat → Nat → List StepResult → Nat → GateOutcome
  | _, 0, steps, iters => .exhausted steps iters
  | iter, remaining + 1, steps, _ =>
    let lintR := mkDetStep .lint (env.lint iter)
    let steps := steps ++ [lintR]
    if lintR.success then
      let testR := mkDetStep .test (env.test iter)
      let steps := steps ++ [testR]
      if testR.success then
        .passed steps iter
      else
        gateLoop env (iter + 1) remaining (steps ++ [mkRepairStep (env.repair iter)]) iter
    else
      gateLoop env (iter + 1) remaining (steps ++ [mkRepairStep (env.repair iter)]) iter

/-- `AgentRunner.run` (runner.py lines 345-467): the full code-mode loop.
The log-building (`log(...)` calls) is omitted here — no claim mentions the
code-mode `agent_log` — and so is the `metadata` plumbing; both are noted
in the module docstring.  Everything that decides `success`, `steps`,
`iterations_used`, `commit_sha`, `files_changed` and `error` is kept. -/
def AgentRunner.run (env : CodeEnv) (maxRepairIterations : Nat) : AgentRunResult :=
  let setupR := mkDetStep .setup env.setup
  if ¬ setupR.success then
    { steps := [setupR], error := "Setup failed: " ++ setupR.error }
  else
    let analyzeR : StepResult := { step := .analyze, success := true, output := env.analyze.2 }
    let planR : StepResult := { step := .plan, success := true, output := env.plan.2 }
    let codeR : StepResult :=
      { step := .code
        success := env.code.1
        output := env.code.2
        error := if env.code.1 then "" else env.code.2 }
    let base := [setupR, analyzeR, planR, codeR]
    if ¬ codeR.success then
      { steps := base, error := "Coding failed: " ++ codeR.error, engine_started := true }
    else
      match gateLoop env 1 maxRepairIterations base 0 with
      | .exhausted steps iters =>
        { steps := steps
          iterations_used := iters
          error := "Max repair iterations (" ++ toString maxRepairIterations ++ ") exhausted"
          engine_started := true }
      | .passed steps iters =>
        let files := pyFilterLines env.commitFiles.stdout
        let commitR := mkDetStep .commit env.commit
        let steps := steps ++ [commitR]
        if ¬ commitR.success then
          { steps := steps
            iterations_used := iters
            error := "Commit/push failed: " ++ commitR.error
            engine_started := true }
        else
          { success := true
            steps := steps
            iterations_used := iters
            commit_sha := pyLastLineOrEmpty env.commit.stdout
            files_changed := files
            engine_started := true }

/-- Environment for one `AgentRunner.run_peer_review`. -/
structure PeerEnv where
  engineName : String := "goose"
  setup : ExecRes
  diffStats : ExecRes := { exitCode := 0 }
  diffFiles : ExecRes := { exitCode := 0 }
  diff : ExecRes
  review : Bool × String := (true, "")
  feedback : Bool × String := (true, "")

/-- `AgentRunner.run_peer_review` (runner.py lines 262-343), log lines
included (the claims compare `agent_log` with `review_output`).  The diff
step (`_step_get_diff`, lines 1105-1146) reports its result under
`StepType.ANALYZE`, as the source does; its output is the diff truncated
to 15000 characters. -/
def AgentRunner.run_peer_review (env : PeerEnv) (task : Task) : AgentRunResult :=
  let log0 : List String :=
    ["🔧 Agent engine: " ++ env.engineName,
     "📋 Mode: PEER REVIEW (diff " ++ pyShowOpt task.target_branch ++ " vs " ++ task.branch ++ ")",
     "▶ Step 1/4: Cloning repository..."]
  let setupR := mkDetStep .setup env.setup
  if ¬ setupR.success then
    { steps := [setupR]
      error := "Setup failed: " ++ setupR.error
      agent_log := joinLines log0 }
  else
    let log1 := log0 ++
      ["  ✓ Repo cloned, checked out '" ++ pyShowOpt task.target_branch ++ "'",
       "▶ Step 2/4: Computing diff (" ++ task.branch ++ ".." ++ pyShowOpt task.target_branch ++ ")..."]
    let diffR : StepResult :=
      { step := .analyze
        success := env.diff.exitCode == 0
        output := pyTake 15000 env.diff.stdout
        error := if env.diff.exitCode == 0 then "" else env.diff.stderr }
    let steps := [setupR, diffR]
    if pyStrip diffR.output = "" then
      { success := true
        steps := steps
        agent_log := joinLines (log1 ++
          ["  ⓘ No changes found between branches", "",
           "═══ PEER REVIEW OUTPUT ═══",
           "No differences found between '" ++ task.branch ++ "' and '"
             ++ pyShowOpt task.target_branch ++ "'."]) }
    else
      let stats := pyLastLineOrEmpty env.diffStats.stdout
      let reviewR : StepResult := { step := .analyze, success := true, output := env.review.2 }
      let feedbackR : StepResult :=
        { step := .analyze
          success := env.feedback.1
          output := env.feedback.2
          error := if env.feedback.1 then "" else env.feedback.2 }
      { success := true
        steps := steps ++ [reviewR, feedbackR]
        files_changed := pyFilterLines env.diffFiles.stdout
        engine_started := true
        agent_log := joinLines (log1 ++
          ["  ✓ Diff computed (" ++ stats ++ ")",
           "▶ Starting " ++ env.engineName ++ " engine...",
           "  ✓ " ++ env.engineName ++ " engine ready",
           "▶ Step 3/4: Agent reviewing code changes...",
           "  ✓ Code review complete",
           "▶ Step 4/4: Generating review feedback...",
           "  ✓ Peer review complete", "",
           "═══ PEER REVIEW OUTPUT ═══",
           env.feedback.2]) }

/-! ## Git URL handling (`src/git_integration/`)

`parse_repo_from_url` (git_manager.py lines 30-52) matches

  `(?:https://github\.com/|git@github\.com:)([^/]+/[^/.]+?)(?:\.git)?$`

and the analogous Bitbucket pattern.  Because the group is `[^/]+` then `/`
then `[^/.]+?` and the optional tail `\.git` contains no slash, the text
after the prefix must contain exactly one `/`; the owner part is everything
before it (non-empty, no `/`), and the name part after it matches iff it is
non-empty and dot-free, or is a dot-free non-empty core followed by the
literal `.git`.  The lazy `+?` and the anchored `$` make that decomposition
unique, so the match is embedded as the decision procedure below. -/

/-- `p.isPrefixOf l` then drop it: one regex alternative's fixed prefix. -/
def stripPrefixL (p l : List Char) : Option (List Char) :=
  if p.isPrefixOf l then some (l.drop p.length) else none

/-- The `([^/.]+?)(?:\.git)?$` part: the repo-name text after the slash. -/
def dotfreeTail (b : List Char) : Option (List Char) :=
  if b ≠ [] ∧ b.contains '.' = false then some b
  else if 4 ≤ b.length ∧ b.drop (b.length - 4) = ['.', 'g', 'i', 't'] then
    let core := b.take (b.length - 4)
    if core ≠ [] ∧ core.contains '.' = false then some core else none
  else none

/-- The `([^/]+/[^/.]+?)(?:\.git)?$` part: group 1 of the regex, with the
trailing `.git` stripped. -/
def matchOwnerRepo (l : List Char) : Option (List Char) :=
  let a := l.takeWhile (· ≠ '/')
  match l.dropWhile (· ≠ '/') with
  | [] => none
  | _ :: b =>
    if a = [] ∨ b.contains '/' then none
    else (dotfreeTail b).map (fun nm => a ++ '/' :: nm)

/-- One provider's regex: try the https prefix, then the ssh prefix. -/
def matchProviderUrl (httpsPrefix sshPrefix : String) (l : List Char) : Option (List Char) :=
  match stripPrefixL httpsPrefix.data l with
  | some rest => matchOwnerRepo rest
  | none =>
    match stripPrefixL sshPrefix.data l with
    | some rest => matchOwnerRepo rest
    | none => none

/-- `parse_repo_from_url` (git_manager.py lines 30-52): GitHub pattern
first, then Bitbucket; `none` models the `ValueError` raised when neither
matches (its message is `"Cannot parse Git URL: " ++ url`). -/
def parse_repo_from_url (url : String) : Option (String × GitProviderT) :=
  match matchProviderUrl "https://github.com/" "git@github.com:" url.data with
  | some repo => some (String.mk repo, .github)
  | none =>
    match matchProviderUrl "https://bitbucket.org/" "git@bitbucket.org:" url.data with
    | some repo => some (String.mk repo, .bitbucket)
    | none => none

/-- `GitHubProvider.get_clone_url` (github_provider.py lines 133-135). -/
def github_get_clone_url (repo : String) : String :=
  "https://github.com/" ++ repo ++ ".git"

/-- `BitbucketProvider.get_clone_url` (bitbucket_provider.py lines 121-123). -/
def bitbucket_get_clone_url (repo : String) : String :=
  "https://bitbucket.org/" ++ repo ++ ".git"

/-! ## Pipeline driver (`src/orchestrator/services/pipeline.py`) -/

/-- The verb prefixes `_generate_pr_title` checks (pipeline.py line 424). -/
def prTitleVerbs : List String := ["fix", "add", "update", "refactor", "remove"]

/-- `TaskPipeline._generate_pr_title` (pipeline.py lines 414-428):
strip, truncate to 69 chars plus "..." when longer than 72, then prepend
"fix: " unless the (truncated) description already starts with a known
verb, case-insensitively. -/
def generate_pr_title (task : Task) : String :=
  let desc := pyStrip task.description
  let desc := if pyLen desc > 72 then pyTake 69 desc ++ "..." else desc
  if ¬ prTitleVerbs.any (fun p => pyStartsWith (pyLower desc) p) then
    "fix: " ++ desc
  else desc

/-- `TaskPipeline._update_status` (pipeline.py lines 430-439); the
`on_status_change` callback's failures are swallowed, so only the
assignment is modelled. -/
def update_status (t : Task) (s : TaskStatus) : Task := statusSet t s

/-- The message of the `TypeError` Python raises at pipeline.py line 356:
`runner.run(task, vm, clone_url, working_branch, clone_creds=clone_creds)`
while `AgentRunner.run` (runner.py line 345) accepts no `clone_creds`
parameter.  The generic `except Exception` handler (pipeline.py lines
401-403) turns it into `mark_failed(str(e))`. -/
def typeErrorRunMsg : String :=
  "AgentRunner.run() got an unexpected keyword argument 'clone_creds'"

/-- Same defect at pipeline.py line 159 against `AgentRunner.run_review`
(runner.py line 116). -/
def typeErrorRunReviewMsg : String :=
  "AgentRunner.run_review() got an unexpected keyword argument 'clone_creds'"

/-- Same defect at pipeline.py line 255 against
`AgentRunner.run_peer_review` (runner.py line 262). -/
def typeErrorRunPeerReviewMsg : String :=
  "AgentRunner.run_peer_review() got an unexpected keyword argument 'clone_creds'"

/-- The parameters of `AgentRunner.run` (runner.py line 345), after `self`. -/
def runnerRunParams : List String := ["task", "vm", "clone_url", "working_branch"]

/-- The parameters of `AgentRunner.run_review` (runner.py line 116). -/
def runnerRunReviewParams : List String := ["task", "vm", "clone_url"]

/-- The parameters of `AgentRunner.run_peer_review` (runner.py line 262). -/
def runnerRunPeerReviewParams : List String := ["task", "vm", "clone_url"]

/-- Python call semantics: a keyword argument is accepted iff it names a
parameter of the callee (none of the three runner methods takes `**kwargs`). -/
def acceptsKeyword (params : List String) (kw : String) : Bool := params.contains kw

/-- Environment for one pipeline execution: what `pool.claim_vm` returns
(`none` models the exception path, with `claimErr` its `str(e)`). -/
structure PipeEnv where
  claimVm : Option String
  claimErr : String := "No VM available"

/-- `ValueError` message of `parse_repo_from_url` (git_manager.py line 52). -/
def cannotParseMsg (url : String) : String := "Cannot parse Git URL: " ++ url

/-- `TaskPipeline._execute_code` (pipeline.py lines 307-412) as the source
executes it.  It reaches the `claiming_vm` and `running` transitions, then
the call `runner.run(..., clone_creds=clone_creds)` at line 356 raises
`TypeError` (see `runnerRunParams` / `runnerRunKeywords`), which the
`except Exception` handler turns into `mark_failed`.  The remote-branch
creation (lines 328-335) is best-effort and swallowed; `get_clone_url`
(line 320) first parses `task.repo_url` and its `ValueError` propagates to
the same handler. -/
def execute_code (env : PipeEnv) (task : Task) : Task :=
  let task := update_status task .claiming_vm
  match env.claimVm with
  | none => mark_failed task env.claimErr
  | some vmId =>
    let task := { task with vm_id := some vmId }
    match parse_repo_from_url task.repo_url with
    | none => mark_failed task (cannotParseMsg task.repo_url)
    | some _ =>
      let task := { task with working_branch := some ("duckling/" ++ pyTake 8 task.id) }
      let task := update_status task .running
      if acceptsKeyword runnerRunParams "clone_creds" then
        task -- dead branch: were the keyword accepted, the runner would run here
      else
        mark_failed task typeErrorRunMsg

/-- `TaskPipeline._execute_review` (pipeline.py lines 120-208): same frame,
same `clone_creds` `TypeError` at line 159. -/
def execute_review (env : PipeEnv) (task : Task) : Task :=
  let task := update_status task .claiming_vm
  match env.claimVm with
  | none => mark_failed task env.claimErr
  | some vmId =>
    let task := { task with vm_id := some vmId }
    match parse_repo_from_url task.repo_url with
    | none => mark_failed task (cannotParseMsg task.repo_url)
    | some _ =>
      let task := update_status task .running
      if acceptsKeyword runnerRunReviewParams "clone_creds" then
        task -- dead branch: were the keyword accepted, the runner would run here
      else
        mark_failed task typeErrorRunReviewMsg

/-- `TaskPipeline._execute_peer_review` (pipeline.py lines 210-305): same
frame, same `clone_creds` `TypeError` at line 255. -/
def execute_peer_review (env : PipeEnv) (task : Task) : Task :=
  let task := update_status task .claiming_vm
  match env.claimVm with
  | none => mark_failed task env.claimErr
  | some vmId =>
    let task := { task with vm_id := some vmId }
    match parse_repo_from_url task.repo_url with
    | none => mark_failed task (cannotParseMsg task.repo_url)
    | some _ =>
      let task := update_status task .running
      if acceptsKeyword runnerRunPeerReviewParams "clone_creds" then
        task -- dead branch: were the keyword accepted, the runner would run here
      else
        mark_failed task typeErrorRunPeerReviewMsg

/-- `TaskPipeline.execute` (pipeline.py lines 108-118): route by mode. -/
def Pipeline.execute (env : PipeEnv) (task : Task) : Task :=
  match task.mode with
  | .review => execute_review env task
  | .peer_review => execute_peer_review env task
  | .code => execute_code env task

/-! ### Result-interpretation regions of the pipeline

The three regions below are the code that interprets an `AgentRunResult`
once the runner call returns one: pipeline.py lines 360-412 (code mode),
163-182 (review) and 259-279 (peer review).  In the source as it stands
these regions are unreachable — the runner call above each raises the
`clone_creds` `TypeError` first (see C2) — but they are exactly the code
the claims about result handling cite, so they are embedded as standalone
functions of the delivered result. -/

/-- The review-output extraction loop (pipeline.py lines 170-181, identical
at 267-278): first pass looks for a `report` step with truthy output and
breaks; the second pass (only when the first found nothing) walks the steps
reversed and takes the first truthy output. -/
def findReportOutput : List StepResult → String
  | [] => ""
  | s :: rest =>
    if s.step.value == "report" && s.output != "" then s.output
    else findReportOutput rest

/-- The reversed fallback pass of the same loop. -/
def findFirstOutput : List StepResult → String
  | [] => ""
  | s :: rest => if s.output != "" then s.output else findFirstOutput rest

/-- `review_text` as pipeline.py lines 170-181 compute it. -/
def extractReviewText (steps : List StepResult) : String :=
  let rt := findReportOutput steps
  if rt = "" then findFirstOutput steps.reverse else rt

/-- Environment for the PR-creation call (`git.create_pr`, pipeline.py
lines 374-382): `none` models a raised publication error (→ `mark_failed`
via the generic handler), `some (url, number)` the provider's `PRResult`. -/
structure PrEnv where
  createPr : Option (String × Nat)
  prErr : String := "PR creation failed"

/-- Pipeline.py lines 360-412: what `_execute_code` does with a delivered
`AgentRunResult` — copy run fields onto the task, `mark_failed` on an
unsuccessful run, otherwise `creating_pr` → `create_pr` → `mark_completed`. -/
def interpret_code_result (penv : PrEnv) (task : Task) (r : AgentRunResult) : Task :=
  let task := { task with
    agent_log := r.agent_log
    iterations_used := r.iterations_used
    files_changed := r.files_changed }
  if ¬ r.success then mark_failed task r.error
  else
    let task := update_status task .creating_pr
    match penv.createPr with
    | none => mark_failed task penv.prErr
    | some (url, number) => mark_completed task url number

/-- Pipeline.py lines 163-182: what `_execute_review` does with a delivered
`AgentRunResult`. -/
def interpret_review_result (task : Task) (r : AgentRunResult) : Task :=
  let task := { task with agent_log := r.agent_log }
  if ¬ r.success then mark_failed task r.error
  else mark_review_completed task (extractReviewText r.steps)

/-- Pipeline.py lines 259-279: what `_execute_peer_review` does with a
delivered `AgentRunResult` (it also copies `files_changed`). -/
def interpret_peer_review_result (task : Task) (r : AgentRunResult) : Task :=
  let task := { task with agent_log := r.agent_log, files_changed := r.files_changed }
  if ¬ r.success then mark_failed task r.error
  else mark_review_completed task (extractReviewText r.steps)

/-! ## Task queue (`TaskQueue`, pipeline.py lines 442-571)

`asyncio.PriorityQueue` is a binary heap over `(priority_number, task_id)`
tuples compared lexicographically (Python tuple order: the integer first,
then the id string by code points).  `get` removes a minimal entry.  The
queue is modelled as the list of entries; `pqPop` selects the minimum. -/

/-- `{"critical": 0, "high": 1, "medium": 2, "low": 3}` with default 2
(pipeline.py lines 488-489). -/
def priorityNum : TaskPriority → Nat
  | .critical => 0
  | .high => 1
  | .medium => 2
  | .low => 3

/-- Python `str.__lt__`: lexicographic comparison by code point, a proper
prefix comparing less. -/
def chLt : List Char → List Char → Bool
  | [], [] => false
  | [], _ :: _ => true
  | _ :: _, [] => false
  | a :: as, b :: bs =>
    if a.toNat < b.toNat then true
    else if b.toNat < a.toNat then false
    else chLt as bs

/-- Python `s1 < s2` on strings. -/
def pyStrLt (a b : String) : Bool := chLt a.data b.data

/-- Python tuple comparison `(p1, s1) < (p2, s2)`: the priority number
first, the id string on ties. -/
def entryLtB (a b : Nat × String) : Bool :=
  decide (a.1 < b.1) || (a.1 == b.1 && pyStrLt a.2 b.2)

/-- The minimum entry of a non-empty heap (what `PriorityQueue.get`
returns): a fold keeping the strictly smaller element. -/
def pqMinFold (a : Nat × String) (l : List (Nat × String)) : Nat × String :=
  l.foldl (fun acc e => if entryLtB e acc then e else acc) a

/-- Pop the minimal `(priority, id)` entry, as `asyncio.PriorityQueue.get`
does; `none` on an empty queue (the loop's `wait_for` timeout path). -/
def pqPop : List (Nat × String) → Option ((Nat × String) × List (Nat × String))
  | [] => none
  | e :: es =>
    let m := pqMinFold e es
    some (m, (e :: es).erase m)

/-- The queue state: the `_tasks` dict (association list, latest binding
first, as Python's dict assignment overwrites) and the `_queue` heap
entries.  `_active` bookkeeping is not needed by the claims. -/
structure QueueState where
  tasks : List (String × Task) := []
  pq : List (Nat × String) := []

/-- The freshly started queue. -/
def qInit : QueueState := {}

/-- `TaskQueue.submit` (pipeline.py lines 483-491): store the task keyed by
id, enqueue `(priority_number, id)`. -/
def submit (qs : QueueState) (t : Task) : QueueState :=
  { qs with
    tasks := (t.id, t) :: qs.tasks
    pq := qs.pq ++ [(priorityNum t.priority, t.id)] }

/-- Update the task bound to `id` in the `_tasks` dict. -/
def updateTask (tasks : List (String × Task)) (id : String) (f : Task → Task) :
    List (String × Task) :=
  tasks.map (fun kv => if kv.1 = id then (kv.1, f kv.2) else kv)

/-- `TaskQueue.cancel_task` (pipeline.py lines 493-516): `False` when the
id is not in `_tasks`; otherwise cancel the asyncio task if active, set
`task.status = TaskStatus.CANCELLED` eagerly, and return `True` — with no
check of the task's current (possibly terminal) status. -/
def cancel_task (qs : QueueState) (id : String) : Bool × QueueState :=
  match qs.tasks.lookup id with
  | none => (false, qs)
  | some _ =>
    (true, { qs with tasks := updateTask qs.tasks id (fun t => statusSet t .cancelled) })

/-- One pass of `TaskQueue._process_loop` (pipeline.py lines 551-564) that
actually dispatches: pop the minimal entry; if its id is still in
`_tasks`, run `Pipeline.execute` on that task (the spawned coroutine,
here run to completion).  No status check is made before dispatch. -/
def dispatch (qs : QueueState) (env : PipeEnv) : QueueState :=
  match pqPop qs.pq with
  | none => qs
  | some ((_, id), rest) =>
    let qs := { qs with pq := rest }
    match qs.tasks.lookup id with
    | none => qs
    | some t =>
      { qs with tasks := updateTask qs.tasks id (fun _ => Pipeline.execute env t) }

/-- A queue/pipeline operation, as claim C1 ranges over them (pipeline
execution happens inside `dispatch`). -/
inductive Op
  | submit (t : Task)
  | cancel (id : String)
  | dispatch (env : PipeEnv)

/-- Run a sequence of operations from a state. -/
def runOps (qs : QueueState) : List Op → QueueState
  | [] => qs
  | .submit t :: ops => runOps (submit qs t) ops
  | .cancel id :: ops => runOps (cancel_task qs id).2 ops
  | .dispatch env :: ops => runOps (dispatch qs env) ops

/-- Submitted tasks are freshly created `Task` records (routes construct
them via the pydantic defaults): status `pending`, history `[pending]`,
and an id not used by an earlier submit.  `ks` accumulates the used ids. -/
def freshOps : List String → List Op → Bool
  | _, [] => true
  | ks, .submit t :: ops =>
    !ks.contains t.id && (t.status == .pending) && (t.status_history == [.pending])
      && freshOps (t.id :: ks) ops
  | ks, .cancel _ :: ops => freshOps ks ops
  | ks, .dispatch _ :: ops => freshOps ks ops

/-! ## Claim-side definitions

These definitions state properties the claims assert; each is written from
the claim's (or the spec's) words, to be compared with the definitions
above, which are translated from the source. -/

/-- The spec's status graph (claim C1):
`pending → claiming_vm → running → {creating_pr → completed | completed |
failed | cancelled}`, with cancellation from any non-terminal state. -/
def claimEdge : TaskStatus → TaskStatus → Bool
  | .pending, .claiming_vm => true
  | .claiming_vm, .running => true
  | .running, .creating_pr => true
  | .running, .completed => true
  | .running, .failed => true
  | .creating_pr, .completed => true
  | s, .cancelled => !s.isTerminal
  | _, _ => false

/-- The edges the code actually takes (claim C1 amended): the spec graph,
plus `claiming_vm → failed` (claim/parse failures), cancellation from any
state — terminal ones included (`cancel_task` checks no status) — and
`cancelled → claiming_vm` (a task cancelled while pending is still
dispatched). -/
def actualEdge : TaskStatus → TaskStatus → Bool
  | .pending, .claiming_vm => true
  | .cancelled, .claiming_vm => true
  | .claiming_vm, .running => true
  | .claiming_vm, .failed => true
  | .running, .creating_pr => true
  | .running, .completed => true
  | .running, .failed => true
  | .creating_pr, .completed => true
  | _, .cancelled => true
  | _, _ => false

/-- Every adjacent pair of the list satisfies the edge relation. -/
def chainB (E : TaskStatus → TaskStatus → Bool) : List TaskStatus → Bool
  | [] => true
  | [_] => true
  | a :: b :: rest => E a b && chainB E (b :: rest)

/-- Claim C10's characterization of the extracted review text: the first
`report` step with non-empty output; otherwise the last step with
non-empty output; otherwise the empty string. -/
def claimReviewText (steps : List StepResult) : String :=
  match steps.find? (fun s => s.step == StepType.report && s.output != "") with
  | some s => s.output
  | none =>
    match steps.reverse.find? (fun s => s.output != "") with
    | some s => s.output
    | none => ""

/-- The truncation step of `_generate_pr_title` in isolation (claim C6). -/
def descTrunc (d : String) : String :=
  if pyLen d > 72 then pyTake 69 d ++ "..." else d

/-- The known-verb test of `_generate_pr_title` in isolation (claim C6). -/
def hasVerbPrefix (d : String) : Bool :=
  prTitleVerbs.any (fun p => pyStartsWith (pyLower d) p)

/-- The lint/test gate of iteration `i` does not go green (claim C5). -/
def gateFails (env : CodeEnv) (i : Nat) : Prop :=
  ¬ ((env.lint i).exitCode = 0 ∧ (env.test i).exitCode = 0)

/-- Python tuple order `(p1, s1) ≤ (p2, s2)` stated positively (claim C3
amended): strictly higher priority, or equal priority and an id that is
lexicographically no larger. -/
def entryLe (a b : Nat × String) : Prop :=
  a.1 < b.1 ∨ (a.1 = b.1 ∧ (pyStrLt a.2 b.2 = true ∨ a.2 = b.2))

/-- A task whose recorded history follows the actual edge relation and
ends at its current status. -/
def HistOk (t : Task) : Prop :=
  chainB actualEdge t.status_history = true
    ∧ t.status_history.getLast? = some t.status

/-- The invariant of the queue model that makes claim C1's amended bound an
induction: every stored history follows `actualEdge` and ends at the
current status; every queued id's task is still pending or was cancelled
before dispatch; queued ids are distinct. -/
def QInv (qs : QueueState) : Prop :=
  (∀ id t, qs.tasks.lookup id = some t → HistOk t)
  ∧ (∀ e ∈ qs.pq, ∀ t, qs.tasks.lookup e.2 = some t →
      t.status = .pending ∨ t.status = .cancelled)
  ∧ (qs.pq.map (fun e => e.2)).Nodup

/-! ### Concrete instances used by counterexamples and witnesses -/

/-- A pristine code-mode task as scenario 1 of the spec submits it. -/
def taskC1 : Task :=
  { id := "t1"
    description := "Fix the flaky test in the auth service module"
    repo_url := "https://github.com/a/b" }

/-- A pipeline environment in which `claim_vm` succeeds. -/
def envC1 : PipeEnv := { claimVm := some "vm-0" }

/-- Submit, dispatch (runs the pipeline to `failed`), then cancel: the
final cancel moves a terminal task to `cancelled`. -/
def opsC1 : List Op := [.submit taskC1, .dispatch envC1, .cancel "t1"]

/-- A pristine task for C1's witness run: submitted, cancelled while still
pending, then dispatched anyway. -/
def taskC1w : Task :=
  { id := "w1"
    description := "Fix the flaky test in the auth service module"
    repo_url := "https://github.com/a/b" }

/-- Operations for C1's witness run. -/
def opsC1w : List Op := [.submit taskC1w, .cancel "w1", .dispatch envC1]

/-- A code-mode task for C2's witness of the always-failing pipeline. -/
def taskC2 : Task :=
  { id := "c2"
    description := "Fix the flaky test in the auth service module"
    repo_url := "https://github.com/x/y" }

/-- Submitted earlier: medium priority, id "b". -/
def taskC3b : Task :=
  { id := "b"
    description := "Fix the flaky test in the auth service module"
    repo_url := "https://github.com/a/b" }

/-- Submitted later: medium priority, id "a". -/
def taskC3a : Task :=
  { id := "a"
    description := "Fix the flaky test in the auth service module"
    repo_url := "https://github.com/a/b" }

/-- Runner environment for C4: the first lint fails, the second passes,
the test then passes, the commit pushes cleanly. -/
def envC4 : CodeEnv :=
  { setup := { exitCode := 0, stdout := "cloned" }
    code := (true, "patch written")
    lint := fun i =>
      if i = 1 then { exitCode := 1, stdout := "", stderr := "E501 line too long" }
      else { exitCode := 0, stdout := "ok" }
    test := fun _ => { exitCode := 0, stdout := "3 passed" }
    repair := fun _ => (true, "reformatted the long line")
    commitFiles := { exitCode := 0, stdout := "auth/service.py\n" }
    commit := { exitCode := 0, stdout := "abc1234deadbeef\n" } }

/-- Runner environment for C5: every lint fails, so every iteration of the
gate fails. -/
def envC5 : CodeEnv :=
  { setup := { exitCode := 0 }
    code := (true, "patch written")
    lint := fun _ => { exitCode := 1, stderr := "E501 line too long" }
    test := fun _ => { exitCode := 1, stdout := "2 failed" }
    commit := { exitCode := 0 } }

/-- A code-mode task used when interpreting C5's run result. -/
def taskC5 : Task :=
  { id := "c5"
    description := "Fix the flaky test in the auth service module"
    repo_url := "https://github.com/x/y" }

/-- A PR environment (never consulted on C5's failure path). -/
def prEnvC5 : PrEnv := { createPr := some ("https://github.com/x/y/pull/7", 7) }

/-- A description of 73 characters and no known verb prefix (claim C6). -/
def taskC6 : Task :=
  { id := "c6"
    description := String.mk (List.replicate 73 'z')
    repo_url := "https://github.com/a/b" }

/-- A task already in a terminal state, present in the queue's map (C7). -/
def taskC7 : Task :=
  { id := "t7"
    description := "Fix the flaky test in the auth service module"
    repo_url := "https://github.com/a/b"
    status := .completed
    status_history := [.pending, .claiming_vm, .running, .creating_pr, .completed] }

/-- The queue state holding `taskC7`. -/
def qsC7 : QueueState := { tasks := [("t7", taskC7)] }

/-- Peer-review environment with an empty diff (base == target) and a
clone whose stdout is empty, as git writes its progress to stderr (C9). -/
def envC9 : PeerEnv :=
  { setup := { exitCode := 0 }
    diff := { exitCode := 0, stdout := "" } }

/-- A peer-review task with `base == target` (C9). -/
def taskC9 : Task :=
  { id := "c9"
    description := "Review the changes on my branch please and thanks"
    repo_url := "https://github.com/a/b"
    branch := "main"
    target_branch := some "main"
    mode := .peer_review }

/-- A review-mode run result exercising C10's fallback at concrete input. -/
def runResC10 : AgentRunResult :=
  { success := true
    steps := [{ step := .setup, success := true, output := "" },
              { step := .inventory, success := true, output := "12 files" },
              { step := .report, success := true, output := "" },
              { step := .analyze, success := true, output := "history" }] }

/-- A review-mode task for C10's witness. -/
def taskC10 : Task :=
  { id := "c10"
    description := "Review this repository and summarize its structure"
    repo_url := "https://github.com/a/b"
    mode := .review }

/-! ## Helper lemmas -/

/-- The Python string compare `step.step.value == "report"` agrees with
comparing the enum member itself: `.value` is injective on `StepType`. -/
theorem stepValue_eq_report (k : StepType) :
    (k.value == "report") = (k == StepType.report) := by
  cases k <;> rfl

/-- `findReportOutput` is the first-`report`-with-output search. -/
theorem findReportOutput_eq_find (steps : List StepResult) :
    findReportOutput steps
      = ((steps.find? (fun s => s.step == StepType.report && s.output != "")).map
          (fun s => s.output)).getD "" := by
  induction steps with
  | nil => rfl
  | cons s rest ih =>
    simp only [findReportOutput, stepValue_eq_report, List.find?_cons]
    cases h : (s.step == StepType.report && s.output != "") <;> simp [h, ih]

/-- `findFirstOutput` is the first-with-output search. -/
theorem findFirstOutput_eq_find (steps : List StepResult) :
    findFirstOutput steps
      = ((steps.find? (fun s => s.output != "")).map (fun s => s.output)).getD "" := by
  induction steps with
  | nil => rfl
  | cons s rest ih =>
    simp only [findFirstOutput, List.find?_cons]
    cases h : (s.output != "") <;> simp [h, ih]

/-- The extraction loop of pipeline.py lines 170-181 computes exactly the
text claim C10 describes. -/
theorem extractReviewText_eq_claim (steps : List StepResult) :
    extractReviewText steps = claimReviewText steps := by
  rw [extractReviewText, claimReviewText, findReportOutput_eq_find]
  cases h : steps.find? (fun s => s.step == StepType.report && s.output != "") with
  | none =>
    simp only [findFirstOutput_eq_find, if_pos rfl]
    cases steps.reverse.find? (fun s => s.output != "") <;> rfl
  | some s =>
    have hs := List.find?_some h
    have : s.output ≠ "" := by
      intro he
      simp [he] at hs
    simp [this]

/-! ## Claims -/

/-- C10: when a review or peer-review run succeeds, the pipeline stores in
`review_output` the output of the first `report` step with non-empty
output, else the output of the last step with non-empty output, else the
empty string. -/
theorem C10_review_output (task : Task) (r : AgentRunResult) :
    (interpret_review_result task { r with success := true }).review_output
        = some (claimReviewText r.steps)
  ∧ (interpret_peer_review_result task { r with success := true }).review_output
        = some (claimReviewText r.steps) := by
  constructor <;>
    simp [interpret_review_result, interpret_peer_review_result,
      mark_review_completed, statusSet, extractReviewText_eq_claim]

/-- C7 counterexample: `cancel_task` on a task that has already reached the
terminal state `completed` returns `true`, not `false` — the code checks
only presence in the task map, never the status. -/
theorem C7_counterexample :
    (qsC7.tasks.lookup "t7").map (fun t => t.status) = some TaskStatus.completed
  ∧ (cancel_task qsC7 "t7").1 = true := by
  constructor <;> rfl

/-- C7 amended: `cancel_task` returns `false` exactly when the id is absent
from the task map; any present task — terminal included — yields `true`
(and its status is overwritten with `cancelled`). -/
theorem C7_cancel_returns_presence (qs : QueueState) (id : String) :
    (cancel_task qs id).1 = (qs.tasks.lookup id).isSome := by
  unfold cancel_task
  cases h : qs.tasks.lookup id <;> simp [h]

/-- C2 (code bug): every code-mode pipeline execution marks the task
`failed` with the `clone_creds` `TypeError` message — the success path
(`creating_pr`, PR creation, `mark_completed`) is unreachable, so `pr_url`
and `pr_number` are never set. -/
theorem C2_code_mode_always_fails (env : PipeEnv) (t : Task) :
    ((Pipeline.execute env { t with mode := .code, pr_url := none, pr_number := none }).status
        = TaskStatus.failed)
  ∧ (Pipeline.execute env { t with mode := .code, pr_url := none, pr_number := none }).pr_url
        = none
  ∧ (Pipeline.execute env { t with mode := .code, pr_url := none, pr_number := none }).pr_number
        = none
  ∧ (Pipeline.execute env { t with mode := .code, pr_url := none, pr_number := none }).error_message
      ∈ [some typeErrorRunMsg, some env.claimErr,
         some (cannotParseMsg t.repo_url)] := by
  unfold Pipeline.execute execute_code
  cases env.claimVm with
  | none =>
    simp [mark_failed, statusSet, update_status]
  | some vmId =>
    cases hp : parse_repo_from_url t.repo_url with
    | none => simp [hp, mark_failed, statusSet, update_status]
    | some pr =>
      simp [hp, mark_failed, statusSet, update_status, acceptsKeyword, runnerRunParams]

/-- `String.data` distributes over `++`. -/
theorem strData_append (a b : String) : (a ++ b).data = a.data ++ b.data := rfl

/-- `pyLen` distributes over `++`. -/
theorem pyLen_append (a b : String) : pyLen (a ++ b) = pyLen a + pyLen b := by
  simp [pyLen, strData_append]

/-- A Python slice `s[:n]` has at most `n` characters. -/
theorem pyLen_take_le (n : Nat) (s : String) : pyLen (pyTake n s) ≤ n := by
  simp [pyLen, pyTake]

/-- C6 counterexample: a 73-character description yields a 77-character PR
title — the `fix: ` prefix is added after truncation to 72 characters, so
the claimed 72-character bound fails. -/
theorem C6_counterexample :
    generate_pr_title taskC6 = "fix: " ++ String.mk (List.replicate 69 'z') ++ "..."
  ∧ 72 < pyLen (generate_pr_title taskC6) := by
  constructor <;> decide

/-- C6 amended: the title is the stripped description truncated to 69
characters plus "..." when longer than 72, re-prefixed with `fix: ` exactly
when the truncated description does not already begin (case-insensitively)
with fix/add/update/refactor/remove; the truncated core is at most 72
characters, and the final title at most 77 — not 72 — characters. -/
theorem C6_amended (task : Task) :
    pyLen (generate_pr_title task) ≤ 77
  ∧ pyLen (descTrunc (pyStrip task.description)) ≤ 72
  ∧ (72 < pyLen (pyStrip task.description) →
      descTrunc (pyStrip task.description)
        = pyTake 69 (pyStrip task.description) ++ "...")
  ∧ (hasVerbPrefix (descTrunc (pyStrip task.description)) = true →
      generate_pr_title task = descTrunc (pyStrip task.description))
  ∧ (hasVerbPrefix (descTrunc (pyStrip task.description)) = false →
      generate_pr_title task = "fix: " ++ descTrunc (pyStrip task.description)) := by
  have hcore : pyLen (descTrunc (pyStrip task.description)) ≤ 72 := by
    unfold descTrunc
    split
    · rw [pyLen_append]
      have h1 := pyLen_take_le 69 (pyStrip task.description)
      have h2 : pyLen "..." = 3 := by decide
      omega
    · omega
  have htitle : generate_pr_title task
      = if hasVerbPrefix (descTrunc (pyStrip task.description)) then
          descTrunc (pyStrip task.description)
        else "fix: " ++ descTrunc (pyStrip task.description) := by
    unfold generate_pr_title descTrunc hasVerbPrefix
    by_cases h : prTitleVerbs.any (fun p =>
        pyStartsWith (pyLower (if pyLen (pyStrip task.description) > 72 then
          pyTake 69 (pyStrip task.description) ++ "..." else pyStrip task.description)) p)
    · simp [h]
    · simp [h]
  refine ⟨?_, hcore, ?_, ?_, ?_⟩
  · rw [htitle]
    split
    · omega
    · rw [pyLen_append]
      have : pyLen "fix: " = 5 := by decide
      omega
  · intro h
    unfold descTrunc
    rw [if_pos (by omega)]
  · intro h
    rw [htitle, if_pos h]
  · intro h
    rw [htitle, if_neg (by simp [h])]

/-- A cons-level unfolding of `chLt`. -/
theorem chLt_cons (a b : Char) (as bs : List Char) :
    chLt (a :: as) (b :: bs) = true
      ↔ (a.toNat < b.toNat ∨ (a.toNat = b.toNat ∧ chLt as bs = true)) := by
  rw [chLt]
  split_ifs with h1 h2
  · simp [h1]
  · simp [show ¬ a.toNat < b.toNat from h1, show ¬ a.toNat = b.toNat from by omega]
  · simp [show a.toNat = b.toNat from by omega, show ¬ a.toNat < b.toNat from h1]

/-- `chLt` never compares a list below itself. -/
theorem chLt_irrefl : ∀ l, chLt l l = false := by
  intro l
  induction l with
  | nil => rfl
  | cons a as ih =>
    rw [chLt]
    simp [Nat.lt_irrefl, ih]

/-- `chLt` is transitive. -/
theorem chLt_trans : ∀ a b c, chLt a b = true → chLt b c = true → chLt a c = true := by
  intro a
  induction a with
  | nil =>
    intro b c hab hbc
    cases b with
    | nil => exact hbc
    | cons y ys =>
      cases c with
      | nil => simp [chLt] at hbc
      | cons z zs => rfl
  | cons x xs ih =>
    intro b c hab hbc
    cases b with
    | nil => simp [chLt] at hab
    | cons y ys =>
      cases c with
      | nil => simp [chLt] at hbc
      | cons z zs =>
        rw [chLt_cons] at hab hbc ⊢
        rcases hab with h1 | ⟨h1, h1'⟩ <;> rcases hbc with h2 | ⟨h2, h2'⟩
        · exact .inl (by omega)
        · exact .inl (by omega)
        · exact .inl (by omega)
        · exact .inr ⟨by omega, ih ys zs h1' h2'⟩

/-- Characters with equal code points are equal. -/
theorem charEq_of_toNat (a b : Char) (h : a.toNat = b.toNat) : a = b := by
  apply Char.ext
  exact UInt32.ext h

/-- `chLt` is a total strict order: any two lists compare or are equal. -/
theorem chLt_trichotomy : ∀ a b, chLt a b = true ∨ chLt b a = true ∨ a = b := by
  intro a
  induction a with
  | nil =>
    intro b
    cases b with
    | nil => exact .inr (.inr rfl)
    | cons y ys => exact .inl rfl
  | cons x xs ih =>
    intro b
    cases b with
    | nil => exact .inr (.inl rfl)
    | cons y ys =>
      rcases Nat.lt_trichotomy x.toNat y.toNat with h | h | h
      · exact .inl ((chLt_cons _ _ _ _).mpr (.inl h))
      · rcases ih ys with h' | h' | h'
        · exact .inl ((chLt_cons _ _ _ _).mpr (.inr ⟨h, h'⟩))
        · exact .inr (.inl ((chLt_cons _ _ _ _).mpr (.inr ⟨h.symm, h'⟩)))
        · exact .inr (.inr (by rw [charEq_of_toNat x y h, h']))
      · exact .inr (.inl ((chLt_cons _ _ _ _).mpr (.inl h)))

/-- `entryLtB` never compares an entry below itself. -/
theorem entryLtB_irrefl (a : Nat × String) : entryLtB a a = false := by
  simp [entryLtB, pyStrLt, chLt_irrefl]

/-- `entryLtB` is transitive. -/
theorem entryLtB_trans (a b c : Nat × String)
    (hab : entryLtB a b = true) (hbc : entryLtB b c = true) : entryLtB a c = true := by
  simp only [entryLtB, Bool.or_eq_true, Bool.and_eq_true, decide_eq_true_eq,
    beq_iff_eq] at hab hbc ⊢
  rcases hab with h1 | ⟨h1, h1'⟩ <;> rcases hbc with h2 | ⟨h2, h2'⟩
  · exact .inl (by omega)
  · exact .inl (by omega)
  · exact .inl (by omega)
  · exact .inr ⟨by omega, chLt_trans _ _ _ h1' h2'⟩

/-- `entryLtB` is a total strict order. -/
theorem entryLtB_trichotomy (a b : Nat × String) :
    entryLtB a b = true ∨ entryLtB b a = true ∨ a = b := by
  rcases Nat.lt_trichotomy a.1 b.1 with h | h | h
  · exact .inl (by simp [entryLtB, h])
  · rcases chLt_trichotomy a.2.data b.2.data with h' | h' | h'
    · exact .inl (by simp [entryLtB, h, pyStrLt, h'])
    · exact .inr (.inl (by simp [entryLtB, h.symm, pyStrLt, h']))
    · refine .inr (.inr ?_)
      have h2 : a.2 = b.2 := by
        cases a2 : a.2 with
        | mk d1 =>
          cases b2 : b.2 with
          | mk d2 =>
            rw [a2, b2] at h'
            simp at h'
            rw [h']
      exact Prod.ext h h2
  · exact .inr (.inl (by simp [entryLtB, h]))

/-- The fold in `pqMinFold` returns its seed or a list element. -/
theorem pqMinFold_mem (l : List (Nat × String)) :
    ∀ a, pqMinFold a l = a ∨ pqMinFold a l ∈ l := by
  induction l with
  | nil => intro a; exact .inl rfl
  | cons e es ih =>
    intro a
    have step : pqMinFold a (e :: es) = pqMinFold (if entryLtB e a then e else a) es := by
      rw [pqMinFold, pqMinFold, List.foldl_cons]
    rcases ih (if entryLtB e a then e else a) with h | h
    · rw [step, h]
      by_cases he : entryLtB e a
      · rw [if_pos he]; exact .inr (List.mem_cons_self _ _)
      · rw [if_neg he]; exact .inl rfl
    · rw [step]
      exact .inr (List.mem_cons_of_mem _ h)

/-- No entry of the seed-and-list collection compares strictly below the
fold's result: `pqMinFold` is a minimum. -/
theorem pqMinFold_min (l : List (Nat × String)) :
    ∀ a, ∀ x ∈ a :: l, entryLtB x (pqMinFold a l) = false := by
  induction l with
  | nil =>
    intro a x hx
    rw [List.mem_singleton] at hx
    rw [hx, pqMinFold, List.foldl_nil]
    exact entryLtB_irrefl a
  | cons e es ih =>
    intro a x hx
    have step : pqMinFold a (e :: es) = pqMinFold (if entryLtB e a then e else a) es := by
      rw [pqMinFold, pqMinFold, List.foldl_cons]
    have hseed := ih (if entryLtB e a then e else a)
    have hne : entryLtB e (pqMinFold a (e :: es)) = false := by
      rw [step]
      by_cases he : entryLtB e a
      · have := hseed e (by rw [if_pos he]; exact List.mem_cons_self _ _)
        exact this
      · have ha := hseed a (by rw [if_neg he]; exact List.mem_cons_self _ _)
        by_contra hc
        rw [Bool.not_eq_false] at hc
        rcases entryLtB_trichotomy a (pqMinFold (if entryLtB e a then e else a) es)
          with h' | h' | h'
        · rw [h'] at ha; exact Bool.false_ne_true ha.symm
        · have := entryLtB_trans e _ a hc h'
          rw [this] at he; exact he rfl
        · rw [← h'] at hc
          rw [hc] at he; exact he rfl
    have hna : entryLtB a (pqMinFold a (e :: es)) = false := by
      rw [step]
      by_cases he : entryLtB e a
      · have hemin := hseed e (by rw [if_pos he]; exact List.mem_cons_self _ _)
        by_contra hc
        rw [Bool.not_eq_false] at hc
        have := entryLtB_trans e a _ he hc
        rw [this] at hemin; exact Bool.false_ne_true hemin.symm
      · exact hseed a (by rw [if_neg he]; exact List.mem_cons_self _ _)
    rcases List.mem_cons.mp hx with hxa | hx'
    · rw [hxa]; exact hna
    · rcases List.mem_cons.mp hx' with hxe | hxes
      · rw [hxe]; exact hne
      · rw [step]
        exact hseed x (List.mem_cons_of_mem _ hxes)

/-- C3 counterexample: two tasks of equal (medium) priority, the task with
id "b" submitted before the task with id "a"; the queue's next `get`
returns id "a" — ties are broken by the lexicographic order of the id
strings inside the heap tuples, not by submission order. -/
theorem C3_counterexample :
    (submit (submit qInit taskC3b) taskC3a).pq = [(2, "b"), (2, "a")]
  ∧ taskC3b.priority = taskC3a.priority
  ∧ (pqPop (submit (submit qInit taskC3b) taskC3a).pq).map (fun x => x.1.2) = some "a" := by
  refine ⟨by decide, by decide, by decide⟩

/-- From "nothing compares strictly below `e`" to the positive order
statement, by trichotomy. -/
theorem entryLe_of_min (e f : Nat × String) (h : entryLtB f e = false) : entryLe e f := by
  rcases entryLtB_trichotomy e f with h' | h' | h'
  · simp only [entryLtB, Bool.or_eq_true, Bool.and_eq_true, decide_eq_true_eq,
      beq_iff_eq] at h'
    rcases h' with h' | ⟨h1, h2⟩
    · exact .inl h'
    · exact .inr ⟨h1, .inl h2⟩
  · rw [h'] at h; exact absurd h (by simp)
  · rw [h']; exact .inr ⟨rfl, .inr rfl⟩

/-- C3 amended: the queue pops an entry that is minimal in the
lexicographic order on `(priority_number, task_id)` — strictly lower
priority numbers dispatch first, and ties are resolved by the task-id
string order (not by submission order). -/
theorem C3_pop_is_lex_min (q : List (Nat × String)) (e : Nat × String)
    (rest : List (Nat × String)) (h : pqPop q = some (e, rest)) :
    e ∈ q ∧ ∀ f ∈ q, entryLe e f := by
  cases q with
  | nil => simp [pqPop] at h
  | cons a l =>
    simp only [pqPop, Option.some.injEq, Prod.mk.injEq] at h
    obtain ⟨he, _⟩ := h
    constructor
    · rw [← he]
      rcases pqMinFold_mem l a with h' | h'
      · rw [h']; exact List.mem_cons_self _ _
      · exact List.mem_cons_of_mem _ h'
    · intro f hf
      apply entryLe_of_min
      rw [← he]
      exact pqMinFold_min l a f hf

/-- C3 witness: the popped entry `(2, "a")` of the counterexample queue is
a member and is lexicographically minimal. -/
theorem C3_witness :
    ((2, "a") : Nat × String) ∈ [((2 : Nat), "b"), (2, "a")]
  ∧ ∀ f ∈ [((2 : Nat), "b"), (2, "a")], entryLe (2, "a") f :=
  C3_pop_is_lex_min [(2, "b"), (2, "a")] (2, "a") [(2, "b")] (by decide)

/-- Unfolding equation for a spent loop budget. -/
theorem gateLoop_zero (env : CodeEnv) (iter : Nat) (steps : List StepResult) (iters : Nat) :
    gateLoop env iter 0 steps iters = .exhausted steps iters := rfl

/-- Unfolding equation for one loop iteration. -/
theorem gateLoop_succ (env : CodeEnv) (iter remaining : Nat)
    (steps : List StepResult) (iters : Nat) :
    gateLoop env iter (remaining + 1) steps iters =
      (let lintR := mkDetStep .lint (env.lint iter)
       let steps := steps ++ [lintR]
       if lintR.success then
         let testR := mkDetStep .test (env.test iter)
         let steps := steps ++ [testR]
         if testR.success then
           .passed steps iter
         else
           gateLoop env (iter + 1) remaining (steps ++ [mkRepairStep (env.repair iter)]) iter
       else
         gateLoop env (iter + 1) remaining (steps ++ [mkRepairStep (env.repair iter)]) iter) := rfl

/-- C4 counterexample: in the spec's repair-loop-success scenario — first
lint fails, one repair runs, second lint passes, test passes, commit
pushes — the run succeeds with exactly one repair invocation, but
`iterations_used` is 2, not 1: the loop counter is written at the top of
every iteration, and the green gates happen in the second iteration. -/
theorem C4_counterexample :
    (AgentRunner.run envC4 5).success = true
  ∧ ((AgentRunner.run envC4 5).steps.filter (fun s => s.step == StepType.repair)).length = 1
  ∧ ((AgentRunner.run envC4 5).steps.filter (fun s => s.step == StepType.lint)).length = 2
  ∧ ((AgentRunner.run envC4 5).steps.filter (fun s => s.step == StepType.test)).length = 1
  ∧ (AgentRunner.run envC4 5).iterations_used = 2
  ∧ ¬ (AgentRunner.run envC4 5).iterations_used = 1 := by
  refine ⟨by decide, by decide, by decide, by decide, by decide, by decide⟩

/-- C4 amended: when the first lint fails, the second lint and the test
pass and the commit pushes, the run succeeds with exactly one repair
invocation and `iterations_used = 2` (the index of the iteration whose
gates went green). -/
theorem C4_one_repair_two_iterations (env : CodeEnv)
    (h1 : env.setup.exitCode = 0) (h2 : env.code.1 = true)
    (h3 : (env.lint 1).exitCode ≠ 0) (h4 : (env.lint 2).exitCode = 0)
    (h5 : (env.test 2).exitCode = 0) (h6 : env.commit.exitCode = 0) :
    (AgentRunner.run env 5).success = true
  ∧ ((AgentRunner.run env 5).steps.filter (fun s => s.step == StepType.repair)).length = 1
  ∧ (AgentRunner.run env 5).iterations_used = 2 := by
  have hl1 : (mkDetStep .lint (env.lint 1)).success = false := by
    simp [mkDetStep, h3]
  have hl2 : (mkDetStep .lint (env.lint 2)).success = true := by
    simp [mkDetStep, h4]
  have ht2 : (mkDetStep .test (env.test 2)).success = true := by
    simp [mkDetStep, h5]
  have hloop : ∀ (steps : List StepResult) (iters : Nat),
      gateLoop env 1 5 steps iters =
        .passed (steps ++ [mkDetStep .lint (env.lint 1), mkRepairStep (env.repair 1),
          mkDetStep .lint (env.lint 2), mkDetStep .test (env.test 2)]) 2 := by
    intro steps iters
    rw [show (5 : Nat) = 4 + 1 from rfl, gateLoop_succ]
    simp only [hl1, if_false, Bool.false_eq_true]
    rw [show (4 : Nat) = 3 + 1 from rfl, gateLoop_succ]
    simp only [hl2, ht2, if_true]
    simp [List.append_assoc]
  unfold AgentRunner.run
  simp only [mkDetStep, h1, h2]
  norm_num
  rw [hloop]
  simp [mkDetStep, h6, List.filter_append, mkRepairStep, hl1, hl2, ht2]

/-- C4 witness: the amended statement holds of the concrete environment
`envC4`. -/
theorem C4_witness :
    (AgentRunner.run envC4 5).success = true
  ∧ ((AgentRunner.run envC4 5).steps.filter (fun s => s.step == StepType.repair)).length = 1
  ∧ (AgentRunner.run envC4 5).iterations_used = 2 :=
  C4_one_repair_two_iterations envC4 (by decide) (by decide) (by decide)
    (by decide) (by decide) (by decide)

/-- When every iteration's gate fails, the loop runs out and appends only
lint, test and repair results. -/
theorem gateLoop_exhausts (env : CodeEnv) :
    ∀ (remaining iter : Nat) (steps : List StepResult) (iters : Nat),
      (∀ i, iter ≤ i → i < iter + remaining → gateFails env i) →
      ∃ steps2 iters2, gateLoop env iter remaining steps iters = .exhausted steps2 iters2
        ∧ ∀ s ∈ steps2, s ∈ steps
            ∨ s.step = StepType.lint ∨ s.step = StepType.test ∨ s.step = StepType.repair := by
  intro remaining
  induction remaining with
  | zero =>
    intro iter steps iters _
    exact ⟨steps, iters, rfl, fun s hs => .inl hs⟩
  | succ r ih =>
    intro iter steps iters h
    have hfail : gateFails env iter := h iter (Nat.le_refl _) (by omega)
    have hnext : ∀ i, iter + 1 ≤ i → i < (iter + 1) + r → gateFails env i := by
      intro i hi1 hi2
      exact h i (by omega) (by omega)
    rw [gateLoop_succ]
    by_cases hlint : (env.lint iter).exitCode = 0
    · have hls : (mkDetStep .lint (env.lint iter)).success = true := by
        simp [mkDetStep, hlint]
      have htest : ¬ (env.test iter).exitCode = 0 := fun ht => hfail ⟨hlint, ht⟩
      have hts : (mkDetStep .test (env.test iter)).success = false := by
        simp [mkDetStep, htest]
      simp only [hls, hts, if_true, if_false, Bool.false_eq_true]
      obtain ⟨s2, i2, heq, hmem⟩ := ih (iter + 1)
        ((steps ++ [mkDetStep .lint (env.lint iter)] ++ [mkDetStep .test (env.test iter)])
          ++ [mkRepairStep (env.repair iter)]) iter hnext
      refine ⟨s2, i2, by rw [← heq], ?_⟩
      intro s hs
      rcases hmem s hs with hmem' | hk | hk | hk
      · rcases List.mem_append.mp hmem' with hmem'' | hrep
        · rcases List.mem_append.mp hmem'' with hmem''' | hts'
          · rcases List.mem_append.mp hmem''' with hst | hlt
            · exact .inl hst
            · rw [List.mem_singleton] at hlt
              rw [hlt]
              exact .inr (.inl rfl)
          · rw [List.mem_singleton] at hts'
            rw [hts']
            exact .inr (.inr (.inl rfl))
        · rw [List.mem_singleton] at hrep
          rw [hrep]
          exact .inr (.inr (.inr rfl))
      · exact .inr (.inl hk)
      · exact .inr (.inr (.inl hk))
      · exact .inr (.inr (.inr hk))
    · have hls : (mkDetStep .lint (env.lint iter)).success = false := by
        simp [mkDetStep, hlint]
      simp only [hls, if_false, Bool.false_eq_true]
      obtain ⟨s2, i2, heq, hmem⟩ := ih (iter + 1)
        ((steps ++ [mkDetStep .lint (env.lint iter)]) ++ [mkRepairStep (env.repair iter)])
        iter hnext
      refine ⟨s2, i2, by rw [← heq], ?_⟩
      intro s hs
      rcases hmem s hs with hmem' | hk | hk | hk
      · rcases List.mem_append.mp hmem' with hmem'' | hrep
        · rcases List.mem_append.mp hmem'' with hst | hlt
          · exact .inl hst
          · rw [List.mem_singleton] at hlt
            rw [hlt]
            exact .inr (.inl rfl)
        · rw [List.mem_singleton] at hrep
          rw [hrep]
          exact .inr (.inr (.inr rfl))
      · exact .inr (.inl hk)
      · exact .inr (.inr (.inl hk))
      · exact .inr (.inr (.inr hk))

/-- C5: when the setup and coding steps succeed but every iteration of the
lint/test gate fails through all 5 iterations, the run ends unsuccessfully
with error exactly "Max repair iterations (5) exhausted", the commit step
never executes, and the pipeline's result interpretation marks the task
failed with that message. -/
theorem C5_exhaustion (env : CodeEnv) (penv : PrEnv) (task : Task)
    (h1 : env.setup.exitCode = 0) (h2 : env.code.1 = true)
    (hf : ∀ i, 1 ≤ i → i ≤ 5 → gateFails env i) :
    (AgentRunner.run env 5).success = false
  ∧ (AgentRunner.run env 5).error = "Max repair iterations (5) exhausted"
  ∧ (∀ s ∈ (AgentRunner.run env 5).steps, s.step ≠ StepType.commit)
  ∧ (interpret_code_result penv task (AgentRunner.run env 5)).status = TaskStatus.failed
  ∧ (interpret_code_result penv task (AgentRunner.run env 5)).error_message
      = some "Max repair iterations (5) exhausted" := by
  have hyp : ∀ i, 1 ≤ i → i < 1 + 5 → gateFails env i := by
    intro i hi1 hi2
    exact hf i hi1 (by omega)
  have herr : ("Max repair iterations (" ++ toString 5 ++ ") exhausted" : String)
      = "Max repair iterations (5) exhausted" := by decide
  unfold AgentRunner.run
  simp only [mkDetStep, h1, h2]
  norm_num
  split
  case _ s2 i2 heq' =>
    obtain ⟨s2', i2', heq2, hmem⟩ := gateLoop_exhausts env 5 1 _ 0 hyp
    rw [heq'] at heq2
    injection heq2 with hs hi
    subst hs
    refine ⟨rfl, herr, ?_, ?_, ?_⟩
    · intro s hs
      rcases hmem s hs with hbase | hk | hk | hk
      · simp only [List.mem_cons, List.not_mem_nil, or_false] at hbase
        rcases hbase with rfl | rfl | rfl | rfl <;> simp [mkDetStep]
      · rw [hk]; decide
      · rw [hk]; decide
      · rw [hk]; decide
    · simp [interpret_code_result, mark_failed, statusSet]
    · simp [interpret_code_result, mark_failed, statusSet, herr]
  case _ s2 i2 heq' =>
    obtain ⟨s2', i2', heq2, _⟩ := gateLoop_exhausts env 5 1 _ 0 hyp
    rw [heq'] at heq2
    cases heq2

/-- C5 witness: the exhaustion statement holds of the concrete environment
`envC5`, whose lint step always exits 1. -/
theorem C5_witness :
    (AgentRunner.run envC5 5).success = false
  ∧ (AgentRunner.run envC5 5).error = "Max repair iterations (5) exhausted"
  ∧ (∀ s ∈ (AgentRunner.run envC5 5).steps, s.step ≠ StepType.commit)
  ∧ (interpret_code_result prEnvC5 taskC5 (AgentRunner.run envC5 5)).status
      = TaskStatus.failed
  ∧ (interpret_code_result prEnvC5 taskC5 (AgentRunner.run envC5 5)).error_message
      = some "Max repair iterations (5) exhausted" :=
  C5_exhaustion envC5 prEnvC5 taskC5 (by decide) (by decide)
    (fun i _ _ => by intro hcontra; simp [envC5] at hcontra)

set_option maxRecDepth 4000 in
/-- C9 counterexample: for a peer-review task with `base == target` and an
empty diff, the run does return early with success and no engine steps, and
the pipeline's result interpretation does mark the task completed — but
`review_output` is the empty string: the "No differences found" message is
written only to the run's `agent_log`, never to `review_output`. -/
theorem C9_counterexample :
    (AgentRunner.run_peer_review envC9 taskC9).success = true
  ∧ (AgentRunner.run_peer_review envC9 taskC9).engine_started = false
  ∧ (AgentRunner.run_peer_review envC9 taskC9).steps.map (fun s => s.step)
      = [StepType.setup, StepType.analyze]
  ∧ pyContains (AgentRunner.run_peer_review envC9 taskC9).agent_log
      "No differences found" = true
  ∧ (interpret_peer_review_result taskC9 (AgentRunner.run_peer_review envC9 taskC9)).status
      = TaskStatus.completed
  ∧ (interpret_peer_review_result taskC9
        (AgentRunner.run_peer_review envC9 taskC9)).review_output = some ""
  ∧ pyContains "" "No differences found" = false := by
  refine ⟨by decide, by decide, by decide, by decide, by decide, by decide, by decide⟩

/-- C9 amended: on an empty diff with a silent clone, the peer-review run
returns early with success, starts no engine and runs no creative step;
the "No differences found" message is recorded in the run's agent log; the
pipeline's result interpretation (were the result delivered — see C2)
marks the task completed with `review_output` set to the empty string, not
to the no-differences message. -/
theorem C9_empty_diff (env : PeerEnv) (task pipeTask : Task)
    (h1 : env.setup.exitCode = 0) (h2 : env.setup.stdout = "")
    (h3 : env.diff.stdout = "") :
    (AgentRunner.run_peer_review env task).success = true
  ∧ (AgentRunner.run_peer_review env task).engine_started = false
  ∧ (AgentRunner.run_peer_review env task).steps.map (fun s => s.step)
      = [StepType.setup, StepType.analyze]
  ∧ (AgentRunner.run_peer_review env task).agent_log = joinLines
      ["🔧 Agent engine: " ++ env.engineName,
       "📋 Mode: PEER REVIEW (diff " ++ pyShowOpt task.target_branch ++ " vs "
         ++ task.branch ++ ")",
       "▶ Step 1/4: Cloning repository...",
       "  ✓ Repo cloned, checked out '" ++ pyShowOpt task.target_branch ++ "'",
       "▶ Step 2/4: Computing diff (" ++ task.branch ++ ".."
         ++ pyShowOpt task.target_branch ++ ")...",
       "  ⓘ No changes found between branches", "",
       "═══ PEER REVIEW OUTPUT ═══",
       "No differences found between '" ++ task.branch ++ "' and '"
         ++ pyShowOpt task.target_branch ++ "'."]
  ∧ (interpret_peer_review_result pipeTask (AgentRunner.run_peer_review env task)).status
      = TaskStatus.completed
  ∧ (interpret_peer_review_result pipeTask
        (AgentRunner.run_peer_review env task)).review_output = some "" := by
  have hrun : AgentRunner.run_peer_review env task =
      { success := true
        steps := [mkDetStep .setup env.setup,
          { step := .analyze
            success := env.diff.exitCode == 0
            output := pyTake 15000 env.diff.stdout
            error := if env.diff.exitCode == 0 then "" else env.diff.stderr }]
        agent_log := joinLines
          ["🔧 Agent engine: " ++ env.engineName,
           "📋 Mode: PEER REVIEW (diff " ++ pyShowOpt task.target_branch ++ " vs "
             ++ task.branch ++ ")",
           "▶ Step 1/4: Cloning repository...",
           "  ✓ Repo cloned, checked out '" ++ pyShowOpt task.target_branch ++ "'",
           "▶ Step 2/4: Computing diff (" ++ task.branch ++ ".."
             ++ pyShowOpt task.target_branch ++ ")...",
           "  ⓘ No changes found between branches", "",
           "═══ PEER REVIEW OUTPUT ═══",
           "No differences found between '" ++ task.branch ++ "' and '"
             ++ pyShowOpt task.target_branch ++ "'."] } := by
    have hps : pyStrip (pyTake 15000 "") = "" := by decide
    unfold AgentRunner.run_peer_review
    simp only [mkDetStep, h1, h3, hps]
    norm_num
  rw [hrun]
  refine ⟨rfl, rfl, by simp [mkDetStep], rfl, ?_, ?_⟩
  · simp [interpret_peer_review_result, mark_review_completed, statusSet]
  · simp [interpret_peer_review_result, mark_review_completed, statusSet,
      extractReviewText, findReportOutput, findFirstOutput, mkDetStep, h2, h3,
      StepType.value, pyTake]

/-- C9 witness: the amended statement at the concrete empty-diff
environment and task. -/
theorem C9_witness :
    (AgentRunner.run_peer_review envC9 taskC9).success = true
  ∧ (AgentRunner.run_peer_review envC9 taskC9).engine_started = false
  ∧ (AgentRunner.run_peer_review envC9 taskC9).steps.map (fun s => s.step)
      = [StepType.setup, StepType.analyze]
  ∧ (AgentRunner.run_peer_review envC9 taskC9).agent_log = joinLines
      ["🔧 Agent engine: " ++ envC9.engineName,
       "📋 Mode: PEER REVIEW (diff " ++ pyShowOpt taskC9.target_branch ++ " vs "
         ++ taskC9.branch ++ ")",
       "▶ Step 1/4: Cloning repository...",
       "  ✓ Repo cloned, checked out '" ++ pyShowOpt taskC9.target_branch ++ "'",
       "▶ Step 2/4: Computing diff (" ++ taskC9.branch ++ ".."
         ++ pyShowOpt taskC9.target_branch ++ ")...",
       "  ⓘ No changes found between branches", "",
       "═══ PEER REVIEW OUTPUT ═══",
       "No differences found between '" ++ taskC9.branch ++ "' and '"
         ++ pyShowOpt taskC9.target_branch ++ "'."]
  ∧ (interpret_peer_review_result taskC9 (AgentRunner.run_peer_review envC9 taskC9)).status
      = TaskStatus.completed
  ∧ (interpret_peer_review_result taskC9
        (AgentRunner.run_peer_review envC9 taskC9)).review_output = some "" :=
  C9_empty_diff envC9 taskC9 taskC9 (by decide) (by decide) (by decide)

/-- `takeWhile`/`dropWhile` split an append at the first failing element. -/
theorem takeWhile_all_append (p : Char → Bool) (xs : List Char) (y : Char) (ys : List Char)
    (hxs : ∀ x ∈ xs, p x = true) (hy : p y = false) :
    (xs ++ y :: ys).takeWhile p = xs ∧ (xs ++ y :: ys).dropWhile p = y :: ys := by
  induction xs with
  | nil => simp [List.takeWhile_cons, List.dropWhile_cons, hy]
  | cons x xs' ih =>
    have hx : p x = true := hxs x (List.mem_cons_self _ _)
    have ih' := ih (fun z hz => hxs z (List.mem_cons_of_mem _ hz))
    simp [List.takeWhile_cons, List.dropWhile_cons, hx, ih'.1, ih'.2]

/-- A list is a `isPrefixOf` of itself followed by anything. -/
theorem isPrefixOf_append_self (p rest : List Char) : p.isPrefixOf (p ++ rest) = true := by
  induction p with
  | nil => exact List.isPrefixOf_nil_left
  | cons x xs ih => simp [List.isPrefixOf, ih]

/-- `List.contains` is false when the element is absent. -/
theorem contains_false_of_not_mem (l : List Char) (a : Char) (h : a ∉ l) :
    l.contains a = false := by
  cases hc : l.contains a with
  | false => rfl
  | true => exact absurd (List.elem_iff.mp hc) h

/-- `List.contains` is true when the element is present. -/
theorem contains_true_of_mem (l : List Char) (a : Char) (h : a ∈ l) :
    l.contains a = true := List.elem_iff.mpr h

/-- Stripping a literal prefix from that prefix plus a tail yields the tail. -/
theorem stripPrefixL_append (p rest : List Char) : stripPrefixL p (p ++ rest) = some rest := by
  unfold stripPrefixL
  rw [if_pos (isPrefixOf_append_self p rest)]
  rw [List.drop_left]

/-- Stripping a prefix that is no prefix of the (long enough) head fails. -/
theorem stripPrefixL_ne (p q rest : List Char) (hlen : p.length ≤ q.length)
    (hnp : ¬ p <+: q) : stripPrefixL p (q ++ rest) = none := by
  unfold stripPrefixL
  rw [if_neg]
  intro h
  have hpre : p <+: q ++ rest := by
    rw [← List.isPrefixOf_iff_prefix]
    exact h
  exact hnp (List.prefix_of_prefix_length_le hpre (List.prefix_append q rest) hlen)

/-- The owner/name pattern accepts `owner/name.git` and recovers
`owner/name`, for a slash-free non-empty owner and a slash- and dot-free
non-empty name. -/
theorem matchOwnerRepo_roundtrip (owner name : List Char)
    (ho1 : owner ≠ []) (ho2 : '/' ∉ owner)
    (hn1 : name ≠ []) (hn2 : '/' ∉ name) (hn3 : '.' ∉ name) :
    matchOwnerRepo (owner ++ '/' :: (name ++ ['.', 'g', 'i', 't']))
      = some (owner ++ '/' :: name) := by
  have hsplit := takeWhile_all_append (fun c => decide (c ≠ '/')) owner '/'
    (name ++ ['.', 'g', 'i', 't'])
    (fun x hx => by
      simp only [decide_eq_true_eq]
      intro he
      exact ho2 (he ▸ hx))
    (by decide)
  have hconsl : (name ++ ['.', 'g', 'i', 't']).contains '/' = false := by
    apply contains_false_of_not_mem
    intro hmem
    rcases List.mem_append.mp hmem with h' | h'
    · exact hn2 h'
    · simp at h'
  have hconsd : (name ++ ['.', 'g', 'i', 't']).contains '.' = true :=
    contains_true_of_mem _ _ (List.mem_append.mpr (.inr (by simp)))
  have hcored : name.contains '.' = false :=
    contains_false_of_not_mem _ _ hn3
  have hdrop : (name ++ ['.', 'g', 'i', 't']).drop
      ((name ++ ['.', 'g', 'i', 't']).length - 4) = ['.', 'g', 'i', 't'] := by
    rw [show (name ++ ['.', 'g', 'i', 't']).length - 4 = name.length by simp]
    exact List.drop_left name _
  have htake : (name ++ ['.', 'g', 'i', 't']).take
      ((name ++ ['.', 'g', 'i', 't']).length - 4) = name := by
    rw [show (name ++ ['.', 'g', 'i', 't']).length - 4 = name.length by simp]
    exact List.take_left name _
  unfold matchOwnerRepo
  rw [hsplit.1, hsplit.2]
  show (if owner = [] ∨ (name ++ ['.', 'g', 'i', 't']).contains '/' = true then none
    else ((dotfreeTail (name ++ ['.', 'g', 'i', 't'])).map (fun nm => owner ++ '/' :: nm)))
      = some (owner ++ '/' :: name)
  rw [if_neg (by
    intro hc
    rcases hc with hc | hc
    · exact ho1 hc
    · rw [hconsl] at hc; exact Bool.false_ne_true hc)]
  unfold dotfreeTail
  rw [if_neg (by
    intro hc
    rw [hconsd] at hc
    exact Bool.false_ne_true hc.2.symm)]
  rw [if_pos ⟨by simp, hdrop⟩]
  show ((if (name ++ ['.', 'g', 'i', 't']).take ((name ++ ['.', 'g', 'i', 't']).length - 4) ≠ []
      ∧ ((name ++ ['.', 'g', 'i', 't']).take
          ((name ++ ['.', 'g', 'i', 't']).length - 4)).contains '.' = false then
        some ((name ++ ['.', 'g', 'i', 't']).take ((name ++ ['.', 'g', 'i', 't']).length - 4))
      else none).map (fun nm => owner ++ '/' :: nm)) = some (owner ++ '/' :: name)
  rw [htake, if_pos ⟨hn1, hcored⟩]
  rfl

/-- `String.mk` undoes `String.data`. -/
theorem strMk_data (s : String) : String.mk s.data = s := rfl

/-- C8 counterexample: for the owner/repo pair `a/b.c` — accepted by the
ingress validation, whose repository names may contain dots — the parser
fails on the canonical clone URL, so the round trip does not return the
original pair. -/
theorem C8_counterexample :
    github_get_clone_url "a/b.c" = "https://github.com/a/b.c.git"
  ∧ parse_repo_from_url "https://github.com/a/b.c.git" = none
  ∧ parse_repo_from_url (github_get_clone_url "a/b.c")
      ≠ some ("a/b.c", GitProviderT.github) := by
  refine ⟨by decide, by decide, by decide⟩

/-- C8 amended: for every owner/repo pair whose owner is non-empty and
slash-free and whose name is non-empty, slash-free and dot-free, parsing
the canonical clone URL built for that repository returns the original
pair and provider, for both providers. -/
theorem C8_roundtrip (owner name : String)
    (ho1 : owner.data ≠ []) (ho2 : '/' ∉ owner.data)
    (hn1 : name.data ≠ []) (hn2 : '/' ∉ name.data) (hn3 : '.' ∉ name.data) :
    parse_repo_from_url (github_get_clone_url (owner ++ "/" ++ name))
      = some (owner ++ "/" ++ name, GitProviderT.github)
  ∧ parse_repo_from_url (bitbucket_get_clone_url (owner ++ "/" ++ name))
      = some (owner ++ "/" ++ name, GitProviderT.bitbucket) := by
  have hrepo : (owner ++ "/" ++ name).data = owner.data ++ '/' :: name.data := by
    rw [strData_append, strData_append]
    simp [show ("/" : String).data = ['/'] from rfl]
  have hmatch := matchOwnerRepo_roundtrip owner.data name.data ho1 ho2 hn1 hn2 hn3
  have hmk : String.mk (owner.data ++ '/' :: name.data) = owner ++ "/" ++ name := by
    rw [← hrepo, strMk_data]
  constructor
  · have hdata : (github_get_clone_url (owner ++ "/" ++ name)).data
        = "https://github.com/".data
            ++ (owner.data ++ '/' :: (name.data ++ ['.', 'g', 'i', 't'])) := by
      rw [github_get_clone_url, strData_append, strData_append, hrepo]
      simp [show (".git" : String).data = ['.', 'g', 'i', 't'] from rfl]
    simp only [parse_repo_from_url, matchProviderUrl, hdata, stripPrefixL_append,
      hmatch, hmk]
  · have hdata : (bitbucket_get_clone_url (owner ++ "/" ++ name)).data
        = "https://bitbucket.org/".data
            ++ (owner.data ++ '/' :: (name.data ++ ['.', 'g', 'i', 't'])) := by
      rw [bitbucket_get_clone_url, strData_append, strData_append, hrepo]
      simp [show (".git" : String).data = ['.', 'g', 'i', 't'] from rfl]
    have hgh := stripPrefixL_ne "https://github.com/".data "https://bitbucket.org/".data
      (owner.data ++ '/' :: (name.data ++ ['.', 'g', 'i', 't'])) (by decide) (by decide)
    have hssh := stripPrefixL_ne "git@github.com:".data "https://bitbucket.org/".data
      (owner.data ++ '/' :: (name.data ++ ['.', 'g', 'i', 't'])) (by decide) (by decide)
    simp only [parse_repo_from_url, matchProviderUrl, hdata, hgh, hssh,
      stripPrefixL_append, hmatch, hmk]

/-- C8 witness: the amended round trip at the concrete pair `octo/repo`. -/
theorem C8_witness :
    parse_repo_from_url (github_get_clone_url ("octo" ++ "/" ++ "repo"))
      = some ("octo" ++ "/" ++ "repo", GitProviderT.github)
  ∧ parse_repo_from_url (bitbucket_get_clone_url ("octo" ++ "/" ++ "repo"))
      = some ("octo" ++ "/" ++ "repo", GitProviderT.bitbucket) :=
  C8_roundtrip "octo" "repo" (by decide) (by decide) (by decide) (by decide) (by decide)

/-- Extending a chain by one edge at its last element. -/
theorem chainB_snoc (E : TaskStatus → TaskStatus → Bool) :
    ∀ (h : List TaskStatus) (x s : TaskStatus), chainB E h = true →
      h.getLast? = some x → E x s = true → chainB E (h ++ [s]) = true
  | [], x, s, _, hl, _ => by simp at hl
  | [a], x, s, _, hl, he => by
    have hax : a = x := by simpa using hl
    show chainB E [a, s] = true
    rw [chainB]
    simp [hax, he, chainB]
  | a :: b :: t, x, s, hc, hl, he => by
    rw [chainB, Bool.and_eq_true] at hc
    have hl' : (b :: t).getLast? = some x := by
      rwa [List.getLast?_cons_cons] at hl
    have ih := chainB_snoc E (b :: t) x s hc.2 hl' he
    show chainB E (a :: b :: (t ++ [s])) = true
    rw [chainB, Bool.and_eq_true]
    exact ⟨hc.1, by simpa using ih⟩

/-- Cancellation is an actual edge from every status. -/
theorem actualEdge_cancelled (x : TaskStatus) : actualEdge x .cancelled = true := by
  cases x <;> rfl

/-- Appending a status through `statusSet` preserves `HistOk` along an
actual edge. -/
theorem histOk_statusSet (t : Task) (s : TaskStatus) (h : HistOk t)
    (he : actualEdge t.status s = true) : HistOk (statusSet t s) := by
  refine ⟨chainB_snoc actualEdge t.status_history t.status s h.1 h.2 he, ?_⟩
  show (t.status_history ++ [s]).getLast? = some s
  exact List.getLast?_concat _

/-- `lookup` after a keyed update. -/
theorem lookup_updateTask (tasks : List (String × Task)) (key j : String) (f : Task → Task) :
    (updateTask tasks key f).lookup j
      = if j = key then (tasks.lookup j).map f else tasks.lookup j := by
  induction tasks with
  | nil =>
    by_cases hj : j = key <;> simp [updateTask, List.lookup, hj]
  | cons kv rest ih =>
    obtain ⟨k, v⟩ := kv
    have hcons : updateTask ((k, v) :: rest) key f
        = (if k = key then (k, f v) else (k, v)) :: updateTask rest key f := rfl
    rw [hcons]
    by_cases hk : k = key
    · rw [if_pos hk]
      by_cases hj : j = k
      · rw [hj, hk]
        simp [List.lookup]
      · have hbeq : (j == k) = false := beq_eq_false_iff_ne.mpr hj
        have hjkey : ¬ j = key := fun hc => hj (hc.trans hk.symm)
        simp [List.lookup, hbeq, hjkey, ih]
    · rw [if_neg hk]
      by_cases hj : j = k
      · have hjk : (j == k) = true := beq_iff_eq.mpr hj
        have hjkey : ¬ j = key := fun hc => hk (hj.symm.trans hc)
        simp [List.lookup, hjk, hjkey]
      · have hbeq : (j == k) = false := beq_eq_false_iff_ne.mpr hj
        simp [List.lookup, hbeq, ih]

/-- Keys are unchanged by `updateTask`. -/
theorem mem_updateTask_keys (tasks : List (String × Task)) (id : String) (f : Task → Task)
    (kv : String × Task) (h : kv ∈ updateTask tasks id f) :
    ∃ kv₀ ∈ tasks, kv.1 = kv₀.1 := by
  rcases List.mem_map.mp h with ⟨kv₀, hkv₀, heq⟩
  refine ⟨kv₀, hkv₀, ?_⟩
  rw [← heq]
  split <;> rfl

/-- What `pqPop` returns: a member, and the queue with it erased. -/
theorem pqPop_elim (q : List (Nat × String)) (e : Nat × String)
    (rest : List (Nat × String)) (h : pqPop q = some (e, rest)) :
    e ∈ q ∧ rest = q.erase e := by
  cases q with
  | nil => simp [pqPop] at h
  | cons a l =>
    simp only [pqPop, Option.some.injEq, Prod.mk.injEq] at h
    obtain ⟨he, hr⟩ := h
    constructor
    · rw [← he]
      rcases pqMinFold_mem l a with h' | h'
      · rw [h']; exact List.mem_cons_self _ _
      · exact List.mem_cons_of_mem _ h'
    · rw [← hr, ← he]

/-- `HistOk` depends only on the status and history fields. -/
theorem histOk_like (a : Task) (h : HistOk a) (b : Task)
    (hh : b.status_history = a.status_history) (hs : b.status = a.status) : HistOk b := by
  rw [HistOk, hh, hs]
  exact h

/-- The pipeline, run on a pending or previously-cancelled task, keeps the
status history sound with respect to `actualEdge`. -/
theorem execute_history (env : PipeEnv) (t : Task)
    (hst : t.status = .pending ∨ t.status = .cancelled) (h : HistOk t) :
    HistOk (Pipeline.execute env t) := by
  have hclaim : actualEdge t.status .claiming_vm = true := by
    rcases hst with h' | h' <;> rw [h'] <;> rfl
  have h1 : HistOk (update_status t .claiming_vm) :=
    histOk_statusSet t .claiming_vm h hclaim
  have hfail1 : ∀ e, HistOk (mark_failed (update_status t .claiming_vm) e) := fun e =>
    histOk_statusSet _ .failed h1 rfl
  have hrun : HistOk (update_status (update_status t .claiming_vm) .running) :=
    histOk_statusSet _ .running h1 rfl
  have hfail2 : ∀ e, HistOk (mark_failed (update_status (update_status t .claiming_vm) .running) e) :=
    fun e => histOk_statusSet _ .failed hrun rfl
  unfold Pipeline.execute
  cases hmode : t.mode with
  | review =>
    show HistOk (execute_review env t)
    unfold execute_review
    dsimp only
    split
    · exact hfail1 _
    · split <;>
        first
          | exact histOk_like (mark_failed (update_status t TaskStatus.claiming_vm) "")
              (hfail1 "") _ rfl rfl
          | exact histOk_like (mark_failed
              (update_status (update_status t TaskStatus.claiming_vm) TaskStatus.running) "")
              (hfail2 "") _ rfl rfl
  | peer_review =>
    show HistOk (execute_peer_review env t)
    unfold execute_peer_review
    dsimp only
    split
    · exact hfail1 _
    · split <;>
        first
          | exact histOk_like (mark_failed (update_status t TaskStatus.claiming_vm) "")
              (hfail1 "") _ rfl rfl
          | exact histOk_like (mark_failed
              (update_status (update_status t TaskStatus.claiming_vm) TaskStatus.running) "")
              (hfail2 "") _ rfl rfl
  | code =>
    show HistOk (execute_code env t)
    unfold execute_code
    dsimp only
    split
    · exact hfail1 _
    · split <;>
        first
          | exact histOk_like (mark_failed (update_status t TaskStatus.claiming_vm) "")
              (hfail1 "") _ rfl rfl
          | exact histOk_like (mark_failed
              (update_status (update_status t TaskStatus.claiming_vm) TaskStatus.running) "")
              (hfail2 "") _ rfl rfl

/-- `lookup` on a freshly consed binding. -/
theorem lookup_cons (k : String) (v : Task) (ts : List (String × Task)) (j : String) :
    ((k, v) :: ts).lookup j = if j = k then some v else ts.lookup j := by
  by_cases hj : j = k
  · simp [List.lookup, hj]
  · simp [List.lookup, beq_eq_false_iff_ne.mpr hj, hj]

/-- The induction behind C1's amended bound: every queue/pipeline operation
preserves the invariant, provided submitted tasks are pristine and their
ids fresh. -/
theorem runOps_preserves (ops : List Op) :
    ∀ (ks : List String) (qs : QueueState), QInv qs →
      (∀ kv ∈ qs.tasks, kv.1 ∈ ks) → (∀ e ∈ qs.pq, e.2 ∈ ks) →
      freshOps ks ops = true → QInv (runOps qs ops) := by
  induction ops with
  | nil =>
    intro ks qs hinv _ _ _
    exact hinv
  | cons op rest ih =>
    intro ks qs hinv hkeys hpqks hfresh
    obtain ⟨hinvA, hinvB, hinvC⟩ := hinv
    cases op with
    | submit t =>
      simp only [freshOps, Bool.and_eq_true] at hfresh
      obtain ⟨⟨⟨hni, hstat⟩, hhist⟩, hrest⟩ := hfresh
      have hstat' : t.status = .pending := beq_iff_eq.mp hstat
      have hhist' : t.status_history = [.pending] := beq_iff_eq.mp hhist
      have hnotin : t.id ∉ ks := by
        intro hm
        rw [Bool.not_eq_true'] at hni
        have h1 : ks.contains t.id = true := List.elem_iff.mpr hm
        rw [h1] at hni
        exact Bool.false_ne_true hni.symm
      show QInv (runOps (submit qs t) rest)
      apply ih (t.id :: ks) (submit qs t) ?_ ?_ ?_ hrest
      · refine ⟨?_, ?_, ?_⟩
        · intro j u hl
          rw [show (submit qs t).tasks = (t.id, t) :: qs.tasks from rfl, lookup_cons] at hl
          by_cases hj : j = t.id
          · rw [if_pos hj] at hl
            injection hl with hu
            rw [← hu]
            refine ⟨?_, ?_⟩
            · rw [hhist']
              rfl
            · rw [hhist', hstat']
              rfl
          · rw [if_neg hj] at hl
            exact hinvA j u hl
        · intro e he u hl
          rw [show (submit qs t).pq = qs.pq ++ [(priorityNum t.priority, t.id)] from rfl] at he
          rw [show (submit qs t).tasks = (t.id, t) :: qs.tasks from rfl, lookup_cons] at hl
          rcases List.mem_append.mp he with hold | hnew
          · have hne : e.2 ≠ t.id := by
              intro hc
              apply hnotin
              rw [← hc]
              exact hpqks e hold
            rw [if_neg hne] at hl
            exact hinvB e hold u hl
          · rw [List.mem_singleton] at hnew
            rw [hnew] at hl
            rw [if_pos rfl] at hl
            injection hl with hu
            rw [← hu]
            exact .inl hstat'
        · show ((qs.pq ++ [(priorityNum t.priority, t.id)]).map (fun e => e.2)).Nodup
          rw [List.map_append, List.nodup_append]
          refine ⟨hinvC, List.nodup_singleton _, ?_⟩
          intro a ha hb
          rw [List.map_singleton, List.mem_singleton] at hb
          have hb' : a = t.id := hb
          rcases List.mem_map.mp ha with ⟨e, he, heq⟩
          apply hnotin
          rw [← hb', ← heq]
          exact hpqks e he
      · intro kv hkv
        rcases List.mem_cons.mp hkv with hnew | hold
        · rw [hnew]
          exact List.mem_cons_self _ _
        · exact List.mem_cons_of_mem _ (hkeys kv hold)
      · intro e he
        rcases List.mem_append.mp he with hold | hnew
        · exact List.mem_cons_of_mem _ (hpqks e hold)
        · rw [List.mem_singleton] at hnew
          rw [hnew]
          exact List.mem_cons_self _ _
    | cancel id =>
      have hfresh' : freshOps ks rest = true := hfresh
      cases hlook : qs.tasks.lookup id with
      | none =>
        have hstep : (cancel_task qs id).2 = qs := by
          simp [cancel_task, hlook]
        show QInv (runOps (cancel_task qs id).2 rest)
        rw [hstep]
        exact ih ks qs ⟨hinvA, hinvB, hinvC⟩ hkeys hpqks hfresh'
      | some u =>
        have hA : ∀ j u', (updateTask qs.tasks id
            (fun v => statusSet v TaskStatus.cancelled)).lookup j = some u' → HistOk u' := by
          intro j u' hl
          rw [lookup_updateTask] at hl
          by_cases hj : j = id
          · rw [if_pos hj] at hl
            rcases Option.map_eq_some'.mp hl with ⟨w, hw, hwu⟩
            rw [← hwu]
            exact histOk_statusSet w .cancelled (hinvA j w hw) (actualEdge_cancelled _)
          · rw [if_neg hj] at hl
            exact hinvA j u' hl
        have hB : ∀ e ∈ qs.pq, ∀ u', (updateTask qs.tasks id
            (fun v => statusSet v TaskStatus.cancelled)).lookup e.2 = some u' →
            u'.status = .pending ∨ u'.status = .cancelled := by
          intro e he u' hl
          rw [lookup_updateTask] at hl
          by_cases hj : e.2 = id
          · rw [if_pos hj] at hl
            rcases Option.map_eq_some'.mp hl with ⟨w, _, hwu⟩
            rw [← hwu]
            exact .inr rfl
          · rw [if_neg hj] at hl
            exact hinvB e he u' hl
        have hK : ∀ kv ∈ updateTask qs.tasks id
            (fun v => statusSet v TaskStatus.cancelled), kv.1 ∈ ks := by
          intro kv hkv
          rcases mem_updateTask_keys qs.tasks id _ kv hkv with ⟨kv₀, hkv₀, hk⟩
          rw [hk]
          exact hkeys kv₀ hkv₀
        have hstep : (cancel_task qs id).2 = QueueState.mk
            (updateTask qs.tasks id (fun v => statusSet v TaskStatus.cancelled)) qs.pq := by
          simp [cancel_task, hlook]
        show QInv (runOps (cancel_task qs id).2 rest)
        rw [hstep]
        exact ih ks _ ⟨hA, hB, hinvC⟩ hK hpqks hfresh'
    | dispatch env =>
      have hfresh' : freshOps ks rest = true := hfresh
      cases hpop : pqPop qs.pq with
      | none =>
        have hstep : dispatch qs env = qs := by
          simp [dispatch, hpop]
        show QInv (runOps (dispatch qs env) rest)
        rw [hstep]
        exact ih ks qs ⟨hinvA, hinvB, hinvC⟩ hkeys hpqks hfresh'
      | some pr =>
        obtain ⟨⟨p, id⟩, rest'⟩ := pr
        obtain ⟨hmem, hrest⟩ := pqPop_elim qs.pq (p, id) rest' hpop
        have hpqN : qs.pq.Nodup := List.Nodup.of_map _ hinvC
        have hsub : rest' ⊆ qs.pq := by
          rw [hrest]
          exact List.erase_subset _ _
        have hnodup' : (rest'.map (fun e => e.2)).Nodup := by
          rw [hrest]
          exact List.Nodup.sublist (List.Sublist.map _ (List.erase_sublist _ _)) hinvC
        cases hlook : qs.tasks.lookup id with
        | none =>
          have hstep : dispatch qs env = QueueState.mk qs.tasks rest' := by
            simp [dispatch, hpop, hlook]
          show QInv (runOps (dispatch qs env) rest)
          rw [hstep]
          exact ih ks _ ⟨hinvA, fun e he u hl => hinvB e (hsub he) u hl, hnodup'⟩
            hkeys (fun e he => hpqks e (hsub he)) hfresh'
        | some u =>
          have hstat := hinvB (p, id) hmem u hlook
          have hexec := execute_history env u hstat (hinvA id u hlook)
          have hA : ∀ j u', (updateTask qs.tasks id
              (fun _ => Pipeline.execute env u)).lookup j = some u' → HistOk u' := by
            intro j u' hl
            rw [lookup_updateTask] at hl
            by_cases hj : j = id
            · rw [if_pos hj] at hl
              rcases Option.map_eq_some'.mp hl with ⟨w, _, hwu⟩
              rw [← hwu]
              exact hexec
            · rw [if_neg hj] at hl
              exact hinvA j u' hl
          have hB : ∀ e ∈ rest', ∀ u', (updateTask qs.tasks id
              (fun _ => Pipeline.execute env u)).lookup e.2 = some u' →
              u'.status = .pending ∨ u'.status = .cancelled := by
            intro e he u' hl
            have hne : e.2 ≠ id := by
              intro hc
              have hee : e ∈ qs.pq := hsub he
              have heid : e = (p, id) :=
                List.inj_on_of_nodup_map hinvC hee hmem (by simpa using hc)
              have hmer : e ∈ qs.pq.erase (p, id) := by
                rw [← hrest]
                exact he
              exact ((List.Nodup.mem_erase_iff hpqN).mp hmer).1 heid
            rw [lookup_updateTask, if_neg hne] at hl
            exact hinvB e (hsub he) u' hl
          have hK : ∀ kv ∈ updateTask qs.tasks id
              (fun _ => Pipeline.execute env u), kv.1 ∈ ks := by
            intro kv hkv
            rcases mem_updateTask_keys qs.tasks id _ kv hkv with ⟨kv₀, hkv₀, hk⟩
            rw [hk]
            exact hkeys kv₀ hkv₀
          have hstep : dispatch qs env = QueueState.mk
              (updateTask qs.tasks id (fun _ => Pipeline.execute env u)) rest' := by
            simp [dispatch, hpop, hlook]
          show QInv (runOps (dispatch qs env) rest)
          rw [hstep]
          exact ih ks _ ⟨hA, hB, hnodup'⟩ hK (fun e he => hpqks e (hsub he)) hfresh'

set_option maxRecDepth 4000 in
/-- C1 (counterexample): in the run submit–dispatch–cancel, task `t1`
records the history `[pending, claiming_vm, running, failed, cancelled]`;
its final edge `failed → cancelled` — `cancel_task` cancels a task that
already reached the terminal status `failed` — is outside the spec's
status graph, so the history does not follow `claimEdge`. -/
theorem C1_counterexample :
    ((runOps qInit opsC1).tasks.lookup "t1").map Task.status_history
      = some [.pending, .claiming_vm, .running, .failed, .cancelled]
    ∧ chainB claimEdge
        [.pending, .claiming_vm, .running, .failed, .cancelled] = false := by
  exact ⟨by decide, by decide⟩

/-- C1: amended status-graph invariant.  Over any sequence of submit,
cancel and dispatch operations on a fresh queue — submitted tasks being
pristine with fresh ids — every stored task's recorded status history
follows `actualEdge`: the spec's graph extended with `claiming_vm → failed`
(claim or parse failure), cancellation from any state including terminal
ones, and `cancelled → claiming_vm` (dispatch after cancellation); and the
history ends at the task's current status. -/
theorem C1_amended (ops : List Op) (hf : freshOps [] ops = true)
    (id : String) (t : Task)
    (hl : (runOps qInit ops).tasks.lookup id = some t) :
    chainB actualEdge t.status_history = true
      ∧ t.status_history.getLast? = some t.status := by
  have h1 : ∀ j u, qInit.tasks.lookup j = some u → HistOk u := fun _ _ h => nomatch h
  have h2 : ∀ e ∈ qInit.pq, ∀ u, qInit.tasks.lookup e.2 = some u →
      u.status = .pending ∨ u.status = .cancelled := fun _ he => nomatch he
  have h3 : (qInit.pq.map (fun e => e.2)).Nodup := List.nodup_nil
  have hinv : QInv (runOps qInit ops) :=
    runOps_preserves ops [] qInit ⟨h1, h2, h3⟩
      (fun _ hkv => nomatch hkv) (fun _ he => nomatch he) hf
  exact hinv.1 id t hl

set_option maxRecDepth 4000 in
/-- C1 (witness): the amended invariant instantiated on the concrete run
that submits `w1`, cancels it while pending, and then dispatches it. -/
theorem C1_witness :
    (((runOps qInit opsC1w).tasks.lookup "w1").map
      (fun t => chainB actualEdge t.status_history)).getD false = true := by
  cases hl : (runOps qInit opsC1w).tasks.lookup "w1" with
  | none =>
    have h2 : ((runOps qInit opsC1w).tasks.lookup "w1").isSome = true := by decide
    rw [hl] at h2
    exact h2
  | some t =>
    exact (C1_amended opsC1w (by decide) "w1" t hl).1

end Duckling
